import Mathlib

set_option maxRecDepth 16384

/-!
# Verification of the TDHCPD lease allocator, BOOTP codec and request engine

A shallow embedding of the core of the TDHCPD DHCP server:

* the per-interface lease pool (`Network` in `Network.cpp`: `configure`,
  `getAvailableAddress`, `reserveAddress`, `releaseAddress`, `isIpAllowed`,
  `isLeaseExpired`, `addLease`, `removeLease`),
* the BOOTP/DHCP wire codec (`Serializer.cpp`: `serializeBootp`,
  `deserializeBootp`, `deserializeBootpOptions`), and
* the DHCP request engine (`BootpHandler.cpp`: `handleDhcpDiscover`,
  `handleDhcpRequest`, `handleRequest`).

Machine integers are modelled as `Nat` with explicit `% 2^w` truncation where
the source truncates; `std::time(nullptr)` becomes an explicit `now`
parameter; the `std::unordered_map` containers become association lists with
the map operations `mapLookup` / `mapInsert` / `mapErase`.  Signed `time_t`
arithmetic in lease-expiry checks is carried out in `Int`.

Out-of-bounds buffer accesses in the parser (undefined behaviour in the C++
source) are modelled as decode failure; no theorem below exercises such an
input.
-/

/-! ## Association-list maps

`std::unordered_map` is modelled as an association list.  `mapInsert` is
`map[k] = v` (replace the entry if the key is present, append otherwise),
`mapErase` is `map.erase(k)`, `mapLookup` is `map.find(k)`.  Lookup and
insert agree with the first matching entry, so the lemmas below hold without
a key-uniqueness assumption.
-/

/-- `map.find(k)`: first value stored under key `k`. -/
def mapLookup {α : Type} (k : Nat) : List (Nat × α) → Option α
  | [] => none
  | (k', v) :: rest => if k = k' then some v else mapLookup k rest

/-- `map[k] = v`: replace the first entry with key `k`, or append. -/
def mapInsert {α : Type} (k : Nat) (v : α) : List (Nat × α) → List (Nat × α)
  | [] => [(k, v)]
  | (k', v') :: rest =>
      if k = k' then (k, v) :: rest else (k', v') :: mapInsert k v rest

/-- `map.erase(k)`: remove the entries with key `k`. -/
def mapErase {α : Type} (k : Nat) (l : List (Nat × α)) : List (Nat × α) :=
  l.filter (fun p => p.1 ≠ k)

/-! ## The lease pool (`Network.cpp`) -/

/-- `struct Lease` from `Structures.h`: `start_time == 0` is the invalid
sentinel. -/
structure Lease where
  startTime : Nat
  hwAddress : Nat
  ipAddress : Nat
deriving DecidableEq, Repr

/-- `m_invalidLease`: the default-constructed `Lease`. -/
def invalidLease : Lease := ⟨0, 0, 0⟩

/-- The mutable per-interface state and configuration of `class Network`.
`renewalTime` and `rebindingTime` are read only by `provideParameterList`. -/
structure Network where
  networkSpace : Nat
  networkSize : Nat
  routers : Nat
  dhcpServerIdentifier : Nat
  dhcpFirst : Nat
  dhcpLast : Nat
  dnsServers : List Nat
  leaseTime : Nat
  renewalTime : Nat
  rebindingTime : Nat
  leasesByHw : List (Nat × Lease)
  leasesByIp : List (Nat × Lease)
deriving DecidableEq, Repr

/-- The subset of `NetworkConfiguration` consumed by `Network::configure`. -/
structure NetworkConfiguration where
  networkSpace : Nat
  networkSize : Nat
  routers : Nat
  dhcpServerIdentifier : Nat
  dhcpFirst : Nat
  dhcpLast : Nat
  dnsServers : List Nat
  leaseTime : Nat
  renewalTime : Nat
  rebindingTime : Nat
deriving DecidableEq, Repr

/-- `Network::configure`: replace the configuration, clear both indices and
load every provided lease into both of them (no validation is performed). -/
def Network.configure (config : NetworkConfiguration) (leases : List Lease) :
    Network :=
  let base : Network :=
    { networkSpace := config.networkSpace
      networkSize := config.networkSize
      routers := config.routers
      dhcpServerIdentifier := config.dhcpServerIdentifier
      dhcpFirst := config.dhcpFirst
      dhcpLast := config.dhcpLast
      dnsServers := config.dnsServers
      leaseTime := config.leaseTime
      renewalTime := config.renewalTime
      rebindingTime := config.rebindingTime
      leasesByHw := []
      leasesByIp := [] }
  leases.foldl
    (fun net lease =>
      { net with
          leasesByHw := mapInsert lease.hwAddress lease net.leasesByHw
          leasesByIp := mapInsert lease.ipAddress lease net.leasesByIp })
    base

/-- `Network::getLease(std::uint64_t)`: absent entries are reported as the
invalid sentinel. -/
def Network.getLeaseHw (net : Network) (hwAddress : Nat) : Lease :=
  (mapLookup hwAddress net.leasesByHw).getD invalidLease

/-- `Network::getLease(std::uint32_t)`. -/
def Network.getLeaseIp (net : Network) (ipAddress : Nat) : Lease :=
  (mapLookup ipAddress net.leasesByIp).getD invalidLease

/-- `Network::isLeaseEntryValid`. -/
def Network.isLeaseEntryValid (lease : Lease) : Bool :=
  lease.startTime ≠ 0

/-- `Network::isLeaseExpired`.  `std::time(nullptr)` is the explicit `now`;
the `time_t` subtraction and the comparison against the `uint32_t`
`m_leaseTime` are signed 64-bit operations, modelled in `Int`. -/
def Network.isLeaseExpired (net : Network) (now : Nat) (lease : Lease) : Bool :=
  if ¬ Network.isLeaseEntryValid lease then true
  else decide ((now : Int) - (lease.startTime : Int) > (net.leaseTime : Int))

/-- The network mask `~0 << (32 - m_networkSize)` as an unsigned 32-bit
value, for `m_networkSize ≤ 32`. -/
def Network.mask (net : Network) : Nat := 2 ^ 32 - 2 ^ (32 - net.networkSize)

/-- `~mask` as an unsigned 32-bit value. -/
def Network.notMask (net : Network) : Nat := 2 ^ (32 - net.networkSize) - 1

/-- `Network::isIpAllowed`: inside the network by mask, not the network
address, and not `m_networkSpace & ~mask` (which the source comments call
the "last address"). -/
def Network.isIpAllowed (net : Network) (ipAddress : Nat) : Bool :=
  Nat.land ipAddress net.mask = Nat.land net.networkSpace net.mask
    ∧ ipAddress ≠ net.networkSpace
    ∧ ipAddress ≠ Nat.land net.networkSpace net.notMask

/-- `Network::getBroadcastAddress`: `networkSpace | ~(~0 << (32 - size))`. -/
def Network.getBroadcastAddress (net : Network) : Nat :=
  Nat.lor net.networkSpace net.notMask

/-- `Network::addLease`: stamp the current time and store the lease in both
indices. -/
def Network.addLease (net : Network) (now hwAddress ipAddress : Nat) :
    Network :=
  let lease : Lease := ⟨now, hwAddress, ipAddress⟩
  { net with
      leasesByHw := mapInsert hwAddress lease net.leasesByHw
      leasesByIp := mapInsert ipAddress lease net.leasesByIp }

/-- `Network::removeLease(std::uint64_t)`: no-op on an invalid entry,
otherwise erase the pair from both indices. -/
def Network.removeLeaseByHw (net : Network) (hwAddress : Nat) : Network :=
  let lease := net.getLeaseHw hwAddress
  if ¬ Network.isLeaseEntryValid lease then net
  else
    { net with
        leasesByHw := mapErase hwAddress net.leasesByHw
        leasesByIp := mapErase lease.ipAddress net.leasesByIp }

/-- `Network::removeLease(std::uint32_t)`. -/
def Network.removeLeaseByIp (net : Network) (ipAddress : Nat) : Network :=
  let lease := net.getLeaseIp ipAddress
  if ¬ Network.isLeaseEntryValid lease then net
  else
    { net with
        leasesByIp := mapErase ipAddress net.leasesByIp
        leasesByHw := mapErase lease.hwAddress net.leasesByHw }

/-- The linear scan `for (ip = m_dhcpFirst; ip <= m_dhcpLast; ++ip)` of
`Network::getAvailableAddress`, with the iteration count made explicit. -/
def Network.scanRange (net : Network) (now : Nat) :
    Nat → Nat → Nat
  | 0, _ => 0
  | count + 1, ip =>
      let lease := net.getLeaseIp ip
      if ¬ Network.isLeaseEntryValid lease ∨ net.isLeaseExpired now lease
      then ip
      else net.scanRange now count (ip + 1)

/-- `Network::getAvailableAddress`; removal of expired leases on the path
mutates the pool, so the new pool state is returned alongside the address.
Step 1 (dropping a disallowed preference and removing an expired lease on
the preferred address) is factored as a pair so the later steps see both
the possibly cleared preference and the possibly updated pool. -/
def Network.getAvailableAddress (net : Network) (now hardwareAddress : Nat)
    (preferredIpAddress : Nat) : Nat × Network :=
  match
    -- Step 1: drop a disallowed preference; remove an expired lease on it.
    (if preferredIpAddress ≠ 0 then
      if ¬ net.isIpAllowed preferredIpAddress then ((0 : Nat), net)
      else
        if Network.isLeaseEntryValid (net.getLeaseIp preferredIpAddress)
            ∧ net.isLeaseExpired now (net.getLeaseIp preferredIpAddress)
        then (preferredIpAddress, net.removeLeaseByIp preferredIpAddress)
        else (preferredIpAddress, net)
     else ((0 : Nat), net)) with
  | (preferred, net1) =>
    -- Step 2: an existing unexpired lease for the hardware address wins.
    let lease2 := net1.getLeaseHw hardwareAddress
    if Network.isLeaseEntryValid lease2
        ∧ ¬ net1.isLeaseExpired now lease2 then
      (lease2.ipAddress, net1)
    else
      let net2 :=
        if Network.isLeaseEntryValid lease2
        then net1.removeLeaseByHw hardwareAddress
        else net1
      -- Step 3: a free preferred address is granted.
      if preferred ≠ 0
          ∧ ¬ Network.isLeaseEntryValid (net2.getLeaseIp preferred)
      then (preferred, net2)
      else
        -- Step 4: first address of the pool range whose lease is absent or
        -- expired; 0 when the pool is exhausted.
        (net2.scanRange now (net.dhcpLast + 1 - net.dhcpFirst) net.dhcpFirst,
         net2)

/-- `Network::reserveAddress`. -/
def Network.reserveAddress (net : Network) (now hardwareAddress ipAddress : Nat) :
    Bool × Network :=
  if ¬ net.isIpAllowed ipAddress then (false, net)
  else
    -- A non-expired lease on the IP held by a different hardware address.
    let leaseIp := net.getLeaseIp ipAddress
    if ¬ net.isLeaseExpired now leaseIp ∧ leaseIp.hwAddress ≠ hardwareAddress
    then (false, net)
    else
      -- An existing lease of the hardware address on a different IP.
      let leaseHw := net.getLeaseHw hardwareAddress
      let net1 :=
        if Network.isLeaseEntryValid leaseHw ∧ leaseHw.ipAddress ≠ ipAddress
        then net.removeLeaseByHw hardwareAddress
        else net
      (true, net1.addLease now hardwareAddress ipAddress)

/-- `Network::releaseAddress`. -/
def Network.releaseAddress (net : Network) (ipAddress : Nat) : Network :=
  net.removeLeaseByIp ipAddress

/-! ## The default network of `Network.h` (the unit-test fixture) -/

/-- The default `NetworkConfiguration`: 192.168.200.0/24, router and server
identifier 192.168.200.1, pool 192.168.200.100 – 192.168.200.254, lease
3600 s. -/
def defaultConfig : NetworkConfiguration :=
  { networkSpace := 3232286720
    networkSize := 24
    routers := 3232286721
    dhcpServerIdentifier := 3232286721
    dhcpFirst := 3232286820
    dhcpLast := 3232286974
    dnsServers := []
    leaseTime := 3600
    renewalTime := 1800
    rebindingTime := 3150 }

/-- A freshly configured default network with no leases. -/
def testNet : Network := Network.configure defaultConfig []

/-- Witness for C10: hardware address 7 holds an *expired* lease on
192.168.200.120 (start 1, lease time 3600, now 100000) and renews it; the
reservation succeeds and the stored lease's clock restarts at `now`. -/
def renewNet : Network :=
  { testNet with
      leasesByHw := [(7, ⟨1, 7, 3232286840⟩)]
      leasesByIp := [(3232286840, ⟨1, 7, 3232286840⟩)] }

/-! ## C2: the bijection-on-valid invariant -/

/-- The claim's invariant, literally: every valid lease `L` stored in either
index satisfies `leases_by_ip[L.ip].hw == L.hw` and
`leases_by_hw[L.hw].ip == L.ip`. -/
def bijectionOnValid (net : Network) : Prop :=
  (∀ p ∈ net.leasesByHw, p.2.startTime ≠ 0 →
      (mapLookup p.2.ipAddress net.leasesByIp).map Lease.hwAddress
          = some p.2.hwAddress
        ∧ (mapLookup p.2.hwAddress net.leasesByHw).map Lease.ipAddress
          = some p.2.ipAddress)
  ∧ (∀ p ∈ net.leasesByIp, p.2.startTime ≠ 0 →
      (mapLookup p.2.ipAddress net.leasesByIp).map Lease.hwAddress
          = some p.2.hwAddress
        ∧ (mapLookup p.2.hwAddress net.leasesByHw).map Lease.ipAddress
          = some p.2.ipAddress)

instance (net : Network) : Decidable (bijectionOnValid net) := by
  unfold bijectionOnValid; infer_instance

/-- The provable one-sided invariant: every valid entry of `leases_by_ip` is
keyed by its own IP and is mirrored exactly in `leases_by_hw`. -/
def IpIndexConsistent (net : Network) : Prop :=
  ∀ q L, mapLookup q net.leasesByIp = some L → L.startTime ≠ 0 →
    L.ipAddress = q ∧ mapLookup L.hwAddress net.leasesByHw = some L

/-- The public pool operations (after `configure`). -/
inductive PoolOp where
  | avail (now hw pref : Nat)
  | reserve (now hw ip : Nat)
  | release (ip : Nat)
deriving DecidableEq, Repr

def applyPoolOp (net : Network) : PoolOp → Network
  | .avail now hw pref => (net.getAvailableAddress now hw pref).2
  | .reserve now hw ip => (net.reserveAddress now hw ip).2
  | .release ip => net.releaseAddress ip

def runPoolOps (net : Network) : List PoolOp → Network
  | [] => net
  | op :: ops => runPoolOps (applyPoolOp net op) ops

/-! ## The BOOTP wire codec (`Serializer.cpp`, `Structures.h`)

Big-endian integers on the wire.  `beBytes w v` is
`addIntegerToBufferAsBigEndian` for a `w`-byte unsigned integer, `beFold`
is the read loop of `readBigEndianIntegerFromBuffer` (`value <<= 8;
value |= n`), and `beReadAt` reads `w` bytes at a byte offset.
-/

def beBytes : Nat → Nat → List Nat
  | 0, _ => []
  | w + 1, v => v / 2 ^ (8 * w) % 256 :: beBytes w v

def beFold (l : List Nat) : Nat :=
  l.foldl (fun value n => (value <<< 8) ||| n) 0

def beReadAt (data : List Nat) (offset width : Nat) : Nat :=
  beFold ((data.drop offset).take width)

/-- The semantic DHCP option payloads of `Structures.h`: `IpListBOOTPOption`
(keys 1, 3, 6, 28, 50), `DHCPMessageTypeBOOTPOption` (key 53),
`ParameterListBOOTPOption` (key 55) and `IntegerBOOTPOption<uint32>`
(keys 51, 54). -/
inductive OptVal where
  | ipList (ips : List Nat)
  | msgType (t : Nat)
  | paramList (ps : List Nat)
  | u32 (v : Nat)
deriving DecidableEq, Repr

/-- The `serialize()` virtual of each option class: a length byte followed
by the payload. -/
def serializeOptVal : OptVal → List Nat
  | .ipList ips => 4 * ips.length % 256 :: ips.flatMap (fun ip => beBytes 4 ip)
  | .msgType t => [1, t % 256]
  | .paramList ps => ps.length % 256 :: ps.map (fun p => p % 256)
  | .u32 v => 4 :: beBytes 4 v

/-- `struct BOOTP` of `Structures.h`.  The 16-byte `chaddr` field keeps only
a 48-bit MAC (stored in a `uint64`); `options` is the option map. -/
structure BOOTP where
  operation : Nat
  hardwareType : Nat
  hardwareAddressLength : Nat
  hops : Nat
  transactionId : Nat
  secondsElapsed : Nat
  flags : Nat
  ciaddr : Nat
  yiaddr : Nat
  siaddr : Nat
  giaddr : Nat
  chaddr : Nat
  magic : Nat
  options : List (Nat × OptVal)
deriving DecidableEq, Repr

/-- The 236-byte fixed BOOTP header plus the 4-byte magic, as emitted by
`serializeBootp`: four single-byte fields, the big-endian multi-byte
fields, `chaddr << 16` in 8 bytes followed by 8 zero bytes (the 16-byte
chaddr field), 64+128 zero bytes of sname/file, then the magic. -/
def encodeHeader (bootp : BOOTP) : List Nat :=
  [bootp.operation % 256, bootp.hardwareType % 256,
   bootp.hardwareAddressLength % 256, bootp.hops % 256]
  ++ (beBytes 4 bootp.transactionId
  ++ (beBytes 2 bootp.secondsElapsed
  ++ (beBytes 2 bootp.flags
  ++ (beBytes 4 bootp.ciaddr
  ++ (beBytes 4 bootp.yiaddr
  ++ (beBytes 4 bootp.siaddr
  ++ (beBytes 4 bootp.giaddr
  ++ (beBytes 8 (bootp.chaddr * 2 ^ 16 % 2 ^ 64)
  ++ (beBytes 8 0
  ++ (List.replicate (64 + 128) 0
  ++ beBytes 4 bootp.magic))))))))))

/-- `serializeBootp`: the fixed header and magic, then MessageType (53) and
ServerIdentifier (54) first — their absence aborts serialization with an
empty result, modelled as `none` — then the remaining options, End (255),
and zero padding up to 300 bytes. -/
def serializeBootp (bootp : BOOTP) : Option (List Nat) :=
  match mapLookup 53 bootp.options, mapLookup 54 bootp.options with
  | some v53, some v54 =>
      let rest := (bootp.options.filter
          (fun kv => kv.1 ≠ 53 ∧ kv.1 ≠ 54)).flatMap
          (fun kv => kv.1 :: serializeOptVal kv.2)
      let all := encodeHeader bootp ++ (53 :: serializeOptVal v53)
        ++ (54 :: serializeOptVal v54) ++ rest ++ [255]
      some (all ++ List.replicate (300 - all.length) 0)
  | _, _ => none

/-- `deserializeIpList`: `count = length byte / 4` addresses of 4 bytes
each.  A leftover of 1–3 bytes makes the parse fail; a leftover of 0 bytes
with addresses still to read is an out-of-bounds access in the source
(undefined behaviour), also modelled as failure. -/
def parseIpList : Nat → List Nat → Option (List Nat)
  | 0, _ => some []
  | count + 1, buffer =>
      if buffer.length < 4 then none
      else
        match parseIpList count (buffer.drop 4) with
        | none => none
        | some ips => some (beFold (buffer.take 4) :: ips)

/-- The keys parsed as IP lists by `deserializeBootpOptions`. -/
def isIpListKey (k : Nat) : Bool :=
  k = 1 ∨ k = 3 ∨ k = 6 ∨ k = 28 ∨ k = 50

/-- One bounded step count is threaded through the TLV loop of
`deserializeBootpOptions`: every iteration consumes at least one byte, so
`buffer.length` steps always suffice (`parseOpts` below instantiates the
bound; `parseOptsGo_irrel` shows any sufficient bound gives the same
result).  Pad (0) advances one byte; End (255) succeeds with the options
gathered so far; exhausting the buffer without an End fails (`return
false` after the loop).  Keys 51 and 54 are deliberately skipped ("not
applicable"), as are unrecognised keys; a MessageType (53) whose length
byte is not 1 fails.  Reads past the end of the buffer (undefined
behaviour in the source) are modelled as failure.  The loop advance
`buffer = buffer.subspan(buffer.front() + 1)` is `rest.drop (len + 1) =
tail.drop len`. -/
def parseOptsGo : Nat → List Nat → List (Nat × OptVal) →
    Option (List (Nat × OptVal))
  | _, [], _ => none
  | 0, _ :: _, _ => none
  | steps + 1, key :: rest, acc =>
      if key = 0 then parseOptsGo steps rest acc
      else if key = 255 then some acc
      else
        match rest with
        | [] => none
        | len :: tail =>
            if isIpListKey key then
              match parseIpList (len / 4) tail with
              | none => none
              | some ips =>
                  parseOptsGo steps (tail.drop len)
                    (mapInsert key (OptVal.ipList ips) acc)
            else if key = 55 then
              if tail.length < len then none
              else
                parseOptsGo steps (tail.drop len)
                  (mapInsert 55 (OptVal.paramList (tail.take len)) acc)
            else if key = 53 then
              if len ≠ 1 then none
              else
                match tail.head? with
                | none => none
                | some t =>
                    parseOptsGo steps (tail.drop len)
                      (mapInsert 53 (OptVal.msgType t) acc)
            else
              parseOptsGo steps (tail.drop len) acc

/-- `deserializeBootpOptions`. -/
def parseOpts (buffer : List Nat) (acc : List (Nat × OptVal)) :
    Option (List (Nat × OptVal)) :=
  parseOptsGo buffer.length buffer acc

/-- `deserializeBootp`: inputs shorter than 241 bytes are rejected, then
the magic at offset 236 is checked, the fixed header fields are read
big-endian, and the options area starting at offset 240 is parsed. -/
def deserializeBootp (data : List Nat) : Option BOOTP :=
  if data.length < 241 then none
  else
    let magic := beReadAt data 236 4
    if magic ≠ 0x63825363 then none
    else
      match parseOpts (data.drop 240) [] with
      | none => none
      | some opts =>
          some { operation := data.getD 0 0
                 hardwareType := data.getD 1 0
                 hardwareAddressLength := data.getD 2 0
                 hops := data.getD 3 0
                 transactionId := beReadAt data 4 4
                 secondsElapsed := beReadAt data 8 2
                 flags := beReadAt data 10 2
                 ciaddr := beReadAt data 12 4
                 yiaddr := beReadAt data 16 4
                 siaddr := beReadAt data 20 4
                 giaddr := beReadAt data 24 4
                 chaddr := beReadAt data 28 8 / 2 ^ 16
                 magic := magic
                 options := opts }

/-! ## The DHCP request engine (`BootpHandler.cpp`)

Responses are modelled as `(target, frame)` pairs; a response is emitted
only when `serializeBootp` succeeds on the frame, matching the
`response.data.empty()` checks in the source.  The BOOTP copy constructor
and copy assignment (`Structures.cpp`) copy every field *except* the
options map, which is left empty; `copyBootp` models such a copy.
-/

/-- `getMessageType`: `DHCP_UnknownMessage` (0) when option 53 is absent.
(The stored option at key 53 is always a `DHCPMessageTypeBOOTPOption`;
any other variant would `throw std::bad_cast` in the source and is
unreachable, modelled as 0.) -/
def getMessageType (bootp : BOOTP) : Nat :=
  match mapLookup 53 bootp.options with
  | some (OptVal.msgType t) => t
  | _ => 0

/-- `getParameterList`: empty when option 55 is absent. -/
def getParameterList (bootp : BOOTP) : List Nat :=
  match mapLookup 55 bootp.options with
  | some (OptVal.paramList ps) => ps
  | _ => []

/-- `getRequestedIpAddress`: 0 when option 50 is absent or its IP list is
empty, otherwise the first address. -/
def getRequestedIpAddress (bootp : BOOTP) : Nat :=
  match mapLookup 50 bootp.options with
  | some (OptVal.ipList (ip :: _)) => ip
  | _ => 0

/-- The BOOTP copy constructor / copy assignment: all fields except the
options map, which is lost. -/
def copyBootp (b : BOOTP) : BOOTP := { b with options := [] }

/-- `provideParameterList`: always fill MessageType=Offer,
ServerIdentifier, IPLeaseTime, SubnetMask, Router, DNS and Broadcast; then
add RenewalTime and/or RebindingTime when the client's option-55 list asks
for them (all other requested keys are only logged). -/
def provideParameterList (net : Network) (bootp offer : BOOTP) : BOOTP :=
  let opts :=
    mapInsert 28 (OptVal.ipList [net.getBroadcastAddress])
      (mapInsert 6 (OptVal.ipList net.dnsServers)
        (mapInsert 3 (OptVal.ipList [net.routers])
          (mapInsert 1 (OptVal.ipList [net.mask])
            (mapInsert 51 (OptVal.u32 net.leaseTime)
              (mapInsert 54 (OptVal.u32 net.dhcpServerIdentifier)
                (mapInsert 53 (OptVal.msgType 2) offer.options))))))
  let opts2 := (getParameterList bootp).foldl
    (fun acc p =>
      if p = 58 then mapInsert 58 (OptVal.u32 net.renewalTime) acc
      else if p = 59 then mapInsert 59 (OptVal.u32 net.rebindingTime) acc
      else acc) opts
  { offer with options := opts2 }

/-- The `markOfferWithNak` lambda of `handleDhcpRequest`: clear the
options, set MessageType=NAK and ServerIdentifier, zero `yiaddr` and
`ciaddr`. -/
def markOfferWithNak (sid : Nat) (offer : BOOTP) : BOOTP :=
  { offer with
      options := mapInsert 54 (OptVal.u32 sid)
        (mapInsert 53 (OptVal.msgType 6) [])
      yiaddr := 0
      ciaddr := 0 }

/-- The tail of `handleDhcpRequest` shared by both entry paths: compare the
pending offer's `yiaddr` and the allocator's answer against the requested
address, then either reserve and ACK or mark the offer as a NAK; the
OfferTable entry is removed, and the response (when serialization
succeeds) is targeted at the allocator's answer `address`. -/
def requestCommon (net : Network) (offers : List (Nat × BOOTP)) (now : Nat)
    (bootp : BOOTP) :
    Option (Nat × BOOTP) × Network × List (Nat × BOOTP) :=
  let offer := (mapLookup bootp.chaddr offers).getD (copyBootp bootp)
  let requested := getRequestedIpAddress bootp
  match net.getAvailableAddress now bootp.chaddr requested with
  | (address, net1) =>
    if offer.yiaddr ≠ requested ∨ address ≠ requested then
      let nak := markOfferWithNak net1.dhcpServerIdentifier offer
      let offers1 := mapErase bootp.chaddr offers
      match serializeBootp nak with
      | some _ => (some (address, nak), net1, offers1)
      | none => (none, net1, offers1)
    else
      match net1.reserveAddress now bootp.chaddr address with
      | (ok, net2) =>
        let offer2 :=
          if ok then
            { offer with
                options := mapInsert 53 (OptVal.msgType 5) offer.options }
          else markOfferWithNak net2.dhcpServerIdentifier offer
        let offers1 := mapErase bootp.chaddr offers
        match serializeBootp offer2 with
        | some _ => (some (address, offer2), net2, offers1)
        | none => (none, net2, offers1)

/-- `handleDhcpRequest`.  With no pending offer for the client: an unknown
hardware address gets a NAK targeted at the network's broadcast address; a
known one gets an offer synthesised from its recorded lease, after which
both paths continue in `requestCommon`. -/
def handleDhcpRequest (net : Network) (offers : List (Nat × BOOTP))
    (now : Nat) (bootp : BOOTP) :
    Option (Nat × BOOTP) × Network × List (Nat × BOOTP) :=
  match mapLookup bootp.chaddr offers with
  | some _ => requestCommon net offers now bootp
  | none =>
    let lease := net.getLeaseHw bootp.chaddr
    if ¬ Network.isLeaseEntryValid lease then
      let nak := markOfferWithNak net.dhcpServerIdentifier (copyBootp bootp)
      match serializeBootp nak with
      | some _ => (some (net.getBroadcastAddress, nak), net, offers)
      | none => (none, net, offers)
    else
      let offer := provideParameterList net bootp
        { copyBootp bootp with
            operation := 2
            yiaddr := lease.ipAddress
            options := [] }
      requestCommon net (mapInsert bootp.chaddr offer offers) now bootp

/-- `handleDhcpDiscover`: reject a non-Request operation; give up when the
pool is exhausted; otherwise build the offer, store it in the OfferTable
and (when serialization succeeds) respond to the offered address. -/
def handleDhcpDiscover (net : Network) (offers : List (Nat × BOOTP))
    (now : Nat) (bootp : BOOTP) :
    Option (Nat × BOOTP) × Network × List (Nat × BOOTP) :=
  if bootp.operation ≠ 1 then (none, net, offers)
  else
    match net.getAvailableAddress now bootp.chaddr 0 with
    | (address, net1) =>
      if address = 0 then (none, net1, offers)
      else
        let offer := provideParameterList net1 bootp
          { copyBootp bootp with
              operation := 2
              options := []
              yiaddr := address }
        match serializeBootp offer with
        | some _ =>
            (some (address, offer), net1, mapInsert bootp.chaddr offer offers)
        | none => (none, net1, mapInsert bootp.chaddr offer offers)

/-- `BootpHandlerPrivate::handleRequest`: dispatch on option 53.  Discover
(1) and Request (3) produce replies; Release (7) and Decline (4) release
`ciaddr`; anything else — including a missing option 53 — is ignored. -/
def handleRequest (net : Network) (offers : List (Nat × BOOTP)) (now : Nat)
    (bootp : BOOTP) :
    Option (Nat × BOOTP) × Network × List (Nat × BOOTP) :=
  match getMessageType bootp with
  | 1 => handleDhcpDiscover net offers now bootp
  | 3 => handleDhcpRequest net offers now bootp
  | 7 => (none, net.releaseAddress bootp.ciaddr, offers)
  | 4 => (none, net.releaseAddress bootp.ciaddr, offers)
  | _ => (none, net, offers)

/-- A DHCPREQUEST frame from client MAC 7 with no RequestedIp option. -/
def reqFrame : BOOTP :=
  { operation := 1
    hardwareType := 1
    hardwareAddressLength := 6
    hops := 0
    transactionId := 0
    secondsElapsed := 0
    flags := 0
    ciaddr := 0
    yiaddr := 0
    siaddr := 0
    giaddr := 0
    chaddr := 7
    magic := 0x63825363
    options := [(53, OptVal.msgType 3)] }

/-- A pending OfferTable entry for MAC 7 offering 192.168.200.100. -/
def pendingOffer : BOOTP :=
  { reqFrame with
      operation := 2
      yiaddr := 3232286820
      options := [(53, OptVal.msgType 2), (54, OptVal.u32 3232286721)] }

/-- The NAK produced for an unknown client: options rebuilt from scratch on
a copy of the request (the BOOTP copy loses the options). -/
def nakUnknownFrame : BOOTP := markOfferWithNak 3232286721 (copyBootp reqFrame)

/-! ## C5: round-trip of the codec -/

/-- A stored option that the serializer can emit and the parser can read
back: a recognised key whose payload shape matches the key and whose
numeric contents fit their wire widths (an IP list must also fit its
single length byte: at most 63 addresses). -/
def wellFormedOpt : Nat × OptVal → Prop
  | (k, OptVal.ipList ips) =>
      isIpListKey k = true ∧ ips.length ≤ 63 ∧ ∀ ip ∈ ips, ip < 2 ^ 32
  | (k, OptVal.msgType t) => k = 53 ∧ t < 256
  | (k, OptVal.paramList ps) =>
      k = 55 ∧ ps.length ≤ 255 ∧ ∀ p ∈ ps, p < 256
  | (k, OptVal.u32 v) => (k = 51 ∨ k = 54) ∧ v < 2 ^ 32

instance (kv : Nat × OptVal) : Decidable (wellFormedOpt kv) := by
  obtain ⟨k, v⟩ := kv
  cases v <;> (unfold wellFormedOpt; infer_instance)

/-- A frame the claim quantifies over: fields within their wire widths,
the DHCP magic, pairwise-distinct option keys, every option recognised and
well formed, and options 53 and 54 present. -/
def WellFormedFrame (f : BOOTP) : Prop :=
  f.operation < 256 ∧ f.hardwareType < 256
  ∧ f.hardwareAddressLength < 256 ∧ f.hops < 256
  ∧ f.transactionId < 2 ^ 32 ∧ f.secondsElapsed < 2 ^ 16 ∧ f.flags < 2 ^ 16
  ∧ f.ciaddr < 2 ^ 32 ∧ f.yiaddr < 2 ^ 32 ∧ f.siaddr < 2 ^ 32
  ∧ f.giaddr < 2 ^ 32 ∧ f.chaddr < 2 ^ 48 ∧ f.magic = 0x63825363
  ∧ (f.options.map Prod.fst).Nodup
  ∧ (∀ kv ∈ f.options, wellFormedOpt kv)
  ∧ mapLookup 53 f.options ≠ none ∧ mapLookup 54 f.options ≠ none

instance (f : BOOTP) : Decidable (WellFormedFrame f) := by
  unfold WellFormedFrame; infer_instance

/-- A concrete well-formed DHCPDISCOVER-style frame for the round-trip:
options MessageType (53), ServerIdentifier (54) and RequestedIp (50). -/
def rtFrame : BOOTP :=
  { operation := 1
    hardwareType := 1
    hardwareAddressLength := 6
    hops := 0
    transactionId := 305419896
    secondsElapsed := 0
    flags := 0
    ciaddr := 0
    yiaddr := 0
    siaddr := 0
    giaddr := 0
    chaddr := 112233445566
    magic := 0x63825363
    options := [(53, OptVal.msgType 1), (54, OptVal.u32 3232286721),
      (50, OptVal.ipList [3232286820])] }

theorem mapLookup_insert {α : Type} (k k' : Nat) (v : α) (l : List (Nat × α)) :
    mapLookup k (mapInsert k' v l) =
      if k = k' then some v else mapLookup k l := by
  induction l with
  | nil =>
      by_cases h : k = k' <;> simp [mapInsert, mapLookup, h]
  | cons p rest ih =>
      obtain ⟨a, b⟩ := p
      by_cases h1 : k' = a
      · subst h1
        by_cases h2 : k = k' <;> simp [mapInsert, mapLookup, h2]
      · by_cases h2 : k = a
        · subst h2
          have hk : ¬ k = k' := fun h => h1 h.symm
          simp [mapInsert, mapLookup, h1, hk]
        · simp [mapInsert, mapLookup, h1, h2, ih]

theorem mapLookup_erase {α : Type} (k k' : Nat) (l : List (Nat × α)) :
    mapLookup k (mapErase k' l) =
      if k = k' then none else mapLookup k l := by
  induction l with
  | nil => by_cases h : k = k' <;> simp [mapErase, mapLookup, h]
  | cons p rest ih =>
      obtain ⟨a, b⟩ := p
      by_cases h1 : a = k'
      · subst h1
        by_cases h2 : k = a <;> simp [mapErase, mapLookup, List.filter, h2] at ih ⊢ <;>
          simpa [mapErase, h2] using ih
      · by_cases h2 : k = a
        · subst h2
          simp [mapErase, mapLookup, List.filter, h1]
        · simp [mapErase, mapLookup, List.filter, h1, h2] at ih ⊢
          simpa [mapErase, h2] using ih

/-! ## Configuration-field invariance of the pool operations -/

theorem leaseTime_removeLeaseByHw (net : Network) (hw : Nat) :
    (net.removeLeaseByHw hw).leaseTime = net.leaseTime := by
  unfold Network.removeLeaseByHw; dsimp only; split <;> rfl

theorem leaseTime_removeLeaseByIp (net : Network) (ip : Nat) :
    (net.removeLeaseByIp ip).leaseTime = net.leaseTime := by
  unfold Network.removeLeaseByIp; dsimp only; split <;> rfl

theorem leaseTime_addLease (net : Network) (now hw ip : Nat) :
    (net.addLease now hw ip).leaseTime = net.leaseTime := rfl

theorem leaseTime_reserveAddress (net : Network) (now hw ip : Nat) :
    (net.reserveAddress now hw ip).2.leaseTime = net.leaseTime := by
  unfold Network.reserveAddress
  dsimp only
  split
  · rfl
  · split
    · rfl
    · rw [leaseTime_addLease]
      split
      · rw [leaseTime_removeLeaseByHw]
      · rfl

/-- **C4.** `isIpAllowed` on the network 192.168.200.0/24 accepts the
directed broadcast address 192.168.200.255 (= `getBroadcastAddress`), because
the third conjunct compares against `networkSpace & ~mask` (which is
192.168.200.0 & 0.0.0.255 = 0.0.0.0) rather than the broadcast
`networkSpace | ~mask` that both the specification and the source's own
"last address" comment intend.  The claimed "iff" is therefore false at this
input: the claim requires `isIpAllowed` to reject the broadcast address. -/
theorem C4_isIpAllowed_accepts_broadcast :
    testNet.getBroadcastAddress = 3232286975
    ∧ testNet.isIpAllowed 3232286975 = true
    ∧ Nat.land testNet.networkSpace testNet.notMask = 0 := by decide

/-- **C9.** The invalid sentinel lease is always reported expired, so for an
IP with no entry at all in `leases_by_ip` the "unexpired lease held by a
different hardware address" rejection of `reserveAddress` cannot fire: an
absent lease never blocks a reservation (only `isIpAllowed` can). -/
theorem C9_absent_lease_never_blocks (net : Network) (now hw ip : Nat) :
    net.isLeaseExpired now invalidLease = true
    ∧ (mapLookup ip net.leasesByIp = none → net.isIpAllowed ip = true →
        (net.reserveAddress now hw ip).1 = true) := by
  constructor
  · simp [Network.isLeaseExpired, Network.isLeaseEntryValid, invalidLease]
  · intro hnone hallow
    unfold Network.reserveAddress
    simp [hallow, Network.getLeaseIp, hnone, Network.isLeaseExpired,
      Network.isLeaseEntryValid, invalidLease]

theorem C9_absent_lease_never_blocks_witness :
    (mapLookup 3232286820 testNet.leasesByIp = none
      ∧ testNet.isIpAllowed 3232286820 = true)
    ∧ testNet.isLeaseExpired 1000 invalidLease = true
    ∧ (testNet.reserveAddress 1000 11 3232286820).1 = true :=
  ⟨⟨by decide, by decide⟩,
   (C9_absent_lease_never_blocks testNet 1000 11 3232286820).1,
   (C9_absent_lease_never_blocks testNet 1000 11 3232286820).2
     (by decide) (by decide)⟩

/-- **C10.** A hardware address that currently holds the lease on `ip`
(expired or not) can always re-reserve an allowed `ip`: the "different
hardware address" rejection cannot fire against the holder itself, and
`addLease` overwrites the lease's `start_time` with the current time, so
renewal always succeeds and restarts the lease clock.  The pairing
hypothesis `hconsist` states that the IP index does not attribute `ip` to
someone else, which is how the two indices are populated together. -/
theorem C10_holder_renewal_succeeds (net : Network) (now hw ip : Nat) (L : Lease)
    (hL : mapLookup hw net.leasesByHw = some L) (_hv : L.startTime ≠ 0)
    (hip : L.ipAddress = ip)
    (hconsist : ∀ M, mapLookup ip net.leasesByIp = some M → M.hwAddress = hw)
    (hallow : net.isIpAllowed ip = true) :
    (net.reserveAddress now hw ip).1 = true
    ∧ mapLookup hw (net.reserveAddress now hw ip).2.leasesByHw
        = some ⟨now, hw, ip⟩
    ∧ mapLookup ip (net.reserveAddress now hw ip).2.leasesByIp
        = some ⟨now, hw, ip⟩ := by
  have hcond2 : ¬ (¬ net.isLeaseExpired now (net.getLeaseIp ip) = true
      ∧ (net.getLeaseIp ip).hwAddress ≠ hw) := by
    rcases hM : mapLookup ip net.leasesByIp with _ | M
    · intro ⟨_, hne⟩
      simp [Network.getLeaseIp, hM, Network.isLeaseExpired,
        Network.isLeaseEntryValid, invalidLease] at *
    · intro ⟨_, hne⟩
      exact hne (by simp [Network.getLeaseIp, hM, hconsist M hM])
  have hcond3 : ¬ (Network.isLeaseEntryValid (net.getLeaseHw hw) = true
      ∧ (net.getLeaseHw hw).ipAddress ≠ ip) := by
    intro ⟨_, hne⟩
    exact hne (by simp [Network.getLeaseHw, hL, hip])
  unfold Network.reserveAddress
  dsimp only
  rw [if_neg (by simp [hallow]), if_neg hcond2, if_neg hcond3]
  refine ⟨rfl, ?_, ?_⟩ <;>
    simp [Network.addLease, mapLookup_insert]

theorem C10_holder_renewal_succeeds_witness :
    (renewNet.isLeaseExpired 100000 ⟨1, 7, 3232286840⟩ = true
      ∧ renewNet.isIpAllowed 3232286840 = true)
    ∧ (renewNet.reserveAddress 100000 7 3232286840).1 = true
    ∧ mapLookup 7 (renewNet.reserveAddress 100000 7 3232286840).2.leasesByHw
        = some ⟨100000, 7, 3232286840⟩
    ∧ mapLookup 3232286840
        (renewNet.reserveAddress 100000 7 3232286840).2.leasesByIp
        = some ⟨100000, 7, 3232286840⟩ :=
  ⟨⟨by decide, by decide⟩,
   C10_holder_renewal_succeeds renewNet 100000 7 3232286840 ⟨1, 7, 3232286840⟩
     (by decide) (by decide) (by decide)
     (by intro M hM; simp [mapLookup] at hM; simp [← hM]) (by decide)⟩

/-- Helper: `reserveAddress` returns `(false, net)` when the IP has an
unexpired lease held by a different hardware address. -/
theorem reserve_blocked_by_foreign_lease (net : Network) (now hw ip : Nat)
    (M : Lease) (hM : mapLookup ip net.leasesByIp = some M)
    (hexp : net.isLeaseExpired now M = false) (hdiff : M.hwAddress ≠ hw) :
    net.reserveAddress now hw ip = (false, net) := by
  cases hallow : net.isIpAllowed ip
  · unfold Network.reserveAddress
    simp [hallow]
  · unfold Network.reserveAddress
    dsimp only
    rw [if_neg (by simp [hallow]),
        if_pos (by simp [Network.getLeaseIp, hM, hexp, hdiff])]

/-- Helper: when the IP is allowed and carries no unexpired foreign lease,
`reserveAddress` succeeds and stores `{now, hw, ip}` in both indices. -/
theorem reserve_success_core (net : Network) (now hw ip : Nat)
    (hallow : net.isIpAllowed ip = true)
    (hfree : ∀ M, mapLookup ip net.leasesByIp = some M →
      net.isLeaseExpired now M = true ∨ M.hwAddress = hw) :
    (net.reserveAddress now hw ip).1 = true
    ∧ mapLookup hw (net.reserveAddress now hw ip).2.leasesByHw
        = some ⟨now, hw, ip⟩
    ∧ mapLookup ip (net.reserveAddress now hw ip).2.leasesByIp
        = some ⟨now, hw, ip⟩ := by
  have hcond2 : ¬ (¬ net.isLeaseExpired now (net.getLeaseIp ip) = true
      ∧ (net.getLeaseIp ip).hwAddress ≠ hw) := by
    rcases hM : mapLookup ip net.leasesByIp with _ | M
    · intro ⟨hne, _⟩
      simp [Network.getLeaseIp, hM, Network.isLeaseExpired,
        Network.isLeaseEntryValid, invalidLease] at hne
    · intro ⟨hne, hdiff⟩
      rcases hfree M hM with hexp | hsame
      · exact hne (by simpa [Network.getLeaseIp, hM] using hexp)
      · exact hdiff (by simp [Network.getLeaseIp, hM, hsame])
  unfold Network.reserveAddress
  dsimp only
  rw [if_neg (by simp [hallow]), if_neg hcond2]
  refine ⟨rfl, ?_, ?_⟩ <;> split <;>
    simp [Network.addLease, mapLookup_insert]

/-- **C1.** The `reserveAddress` contract: (1) a disallowed IP is rejected
with no change; (2) an unexpired lease on the IP held by a different
hardware address causes rejection with no change; (3) otherwise the call
succeeds, any lease the hardware address held on a different IP disappears
from the IP index, and the lease `{start_time = now, hw, ip}` is stored in
both indices (in particular `leases_by_hw[hw].ip = ip` afterwards);
(4) consequently, after a successful `reserveAddress(hw, ip)` at time `now`
(`now ≠ 0`), any `reserveAddress(hw2 ≠ hw, ip)` at a time `now2` at which
that lease has not yet expired (`now2 - now ≤ lease_time`) — and before it
is released or otherwise removed — returns `false` and changes nothing. -/
theorem C1_reserveAddress_contract (net : Network) (now now2 hw hw2 ip : Nat) :
    (net.isIpAllowed ip = false → net.reserveAddress now hw ip = (false, net))
    ∧ (∀ M, mapLookup ip net.leasesByIp = some M →
        net.isLeaseExpired now M = false → M.hwAddress ≠ hw →
        net.reserveAddress now hw ip = (false, net))
    ∧ (net.isIpAllowed ip = true →
       (∀ M, mapLookup ip net.leasesByIp = some M →
          net.isLeaseExpired now M = true ∨ M.hwAddress = hw) →
       (net.reserveAddress now hw ip).1 = true
       ∧ mapLookup hw (net.reserveAddress now hw ip).2.leasesByHw
           = some ⟨now, hw, ip⟩
       ∧ mapLookup ip (net.reserveAddress now hw ip).2.leasesByIp
           = some ⟨now, hw, ip⟩
       ∧ (∀ L, mapLookup hw net.leasesByHw = some L → L.startTime ≠ 0 →
            L.ipAddress ≠ ip →
            mapLookup L.ipAddress (net.reserveAddress now hw ip).2.leasesByIp
              = none))
    ∧ (net.isIpAllowed ip = true →
       (∀ M, mapLookup ip net.leasesByIp = some M →
          net.isLeaseExpired now M = true ∨ M.hwAddress = hw) →
       now ≠ 0 → hw2 ≠ hw →
       (now2 : Int) - (now : Int) ≤ (net.leaseTime : Int) →
       ((net.reserveAddress now hw ip).2.reserveAddress now2 hw2 ip)
         = (false, (net.reserveAddress now hw ip).2)) := by
  refine ⟨?_, ?_, ?_, ?_⟩
  · intro hallow
    unfold Network.reserveAddress
    simp [hallow]
  · intro M hM hexp hdiff
    exact reserve_blocked_by_foreign_lease net now hw ip M hM hexp hdiff
  · intro hallow hfree
    obtain ⟨h1, h2, h3⟩ := reserve_success_core net now hw ip hallow hfree
    refine ⟨h1, h2, h3, ?_⟩
    intro L hL hLv hLip
    unfold Network.reserveAddress
    dsimp only
    rw [if_neg (by simp [hallow])]
    rw [if_neg ?cond2]
    case cond2 =>
      rcases hM : mapLookup ip net.leasesByIp with _ | M
      · intro ⟨hne, _⟩
        simp [Network.getLeaseIp, hM, Network.isLeaseExpired,
          Network.isLeaseEntryValid, invalidLease] at hne
      · intro ⟨hne, hdiff⟩
        rcases hfree M hM with hexp | hsame
        · exact hne (by simpa [Network.getLeaseIp, hM] using hexp)
        · exact hdiff (by simp [Network.getLeaseIp, hM, hsame])
    rw [if_pos ?cond3]
    case cond3 =>
      constructor
      · simp [Network.getLeaseHw, hL, Network.isLeaseEntryValid, hLv]
      · simp [Network.getLeaseHw, hL, hLip]
    have hrm : (net.removeLeaseByHw hw).leasesByIp
        = mapErase L.ipAddress net.leasesByIp := by
      unfold Network.removeLeaseByHw
      dsimp only
      rw [if_neg (by
        simp [Network.getLeaseHw, hL, Network.isLeaseEntryValid, hLv])]
      simp [Network.getLeaseHw, hL]
    simp [Network.addLease, mapLookup_insert, hLip, hrm, mapLookup_erase]
  · intro hallow hfree hnow hhw2 htime
    obtain ⟨-, -, hipIdx⟩ := reserve_success_core net now hw ip hallow hfree
    have hexp2 : (net.reserveAddress now hw ip).2.isLeaseExpired now2
        (⟨now, hw, ip⟩ : Lease) = false := by
      unfold Network.isLeaseExpired
      rw [if_neg (by simp [Network.isLeaseEntryValid, hnow])]
      rw [leaseTime_reserveAddress]
      simpa using not_lt.mpr htime
    exact reserve_blocked_by_foreign_lease _ now2 hw2 ip ⟨now, hw, ip⟩
      hipIdx hexp2 (by simpa using Ne.symm hhw2)

/-- Witness for C1: on the fresh default network, hardware address 11
reserves 192.168.200.150 at time 1000 (all hypotheses of parts (3) and (4)
hold trivially: the pool is empty), and hardware address 12 is then refused
the same address at time 2000, inside the 3600-second lease. -/
theorem C1_reserveAddress_contract_witness :
    (testNet.isIpAllowed 3232286870 = true
      ∧ mapLookup 3232286870 testNet.leasesByIp = none)
    ∧ (testNet.reserveAddress 1000 11 3232286870).1 = true
    ∧ ((testNet.reserveAddress 1000 11 3232286870).2.reserveAddress
         2000 12 3232286870)
        = (false, (testNet.reserveAddress 1000 11 3232286870).2) :=
  ⟨⟨by decide, by decide⟩,
   ((C1_reserveAddress_contract testNet 1000 2000 11 12 3232286870).2.2.1
     (by decide) (by intro M hM; simp [mapLookup] at hM)).1,
   (C1_reserveAddress_contract testNet 1000 2000 11 12 3232286870).2.2.2
     (by decide) (by intro M hM; simp [mapLookup] at hM)
     (by decide) (by decide) (by decide)⟩

/-! ## C3: range of the addresses produced by `getAvailableAddress` -/

/-- The linear scan yields 0 or an address within its iteration window. -/
theorem scanRange_bounds (net : Network) (now : Nat) :
    ∀ count start, net.scanRange now count start = 0
      ∨ (start ≤ net.scanRange now count start
          ∧ net.scanRange now count start < start + count) := by
  intro count
  induction count with
  | zero => intro start; left; rfl
  | succ c ih =>
      intro start
      unfold Network.scanRange
      dsimp only
      split
      · right; omega
      · rcases ih (start + 1) with h0 | ⟨h1, h2⟩
        · left; exact h0
        · right; omega

/-- Expiry only depends on the configured lease time. -/
theorem isLeaseExpired_congr (a b : Network) (now : Nat) (L : Lease)
    (h : a.leaseTime = b.leaseTime) :
    a.isLeaseExpired now L = b.isLeaseExpired now L := by
  unfold Network.isLeaseExpired
  rw [h]

/-- Erasure only shrinks an index: a successful lookup afterwards was
already successful before. -/
theorem mapLookup_of_erase {α : Type} (k k' : Nat) (v : α)
    (l : List (Nat × α)) (h : mapLookup k (mapErase k' l) = some v) :
    mapLookup k l = some v := by
  rw [mapLookup_erase] at h
  by_cases hk : k = k'
  · simp [hk] at h
  · simpa [hk] using h

/-- **C3 (amended).** Every non-zero address returned by
`getAvailableAddress` is (a) an address found by the pool scan, which does
lie within `dhcp_first ≤ ip ≤ dhcp_last`; or (b) the caller's preferred
address, which passes `isIpAllowed` but need not lie within the pool
bounds; or (c) the address of an unexpired lease the hardware address
already held, which is not validated at all.  The claim's unconditional
`dhcp_first ≤ ip ≤ dhcp_last ∧ isIpAllowed ip` does not hold (see the
counterexample). -/
theorem C3_getAvailableAddress_range (net : Network) (now hw pref : Nat)
    (r : Nat) (net' : Network)
    (h : net.getAvailableAddress now hw pref = (r, net')) (hr : r ≠ 0) :
    (net.dhcpFirst ≤ r ∧ r ≤ net.dhcpLast)
    ∨ (r = pref ∧ net.isIpAllowed pref = true)
    ∨ (∃ L, mapLookup hw net.leasesByHw = some L ∧ L.startTime ≠ 0
        ∧ net.isLeaseExpired now L = false ∧ r = L.ipAddress) := by
  unfold Network.getAvailableAddress at h
  split at h
  rename_i p net1 hS
  -- Facts about the step-1 outcome, by the case analysis the code does.
  have hstep1 : (p = 0 ∨ (p = pref ∧ net.isIpAllowed pref = true))
      ∧ net1.leaseTime = net.leaseTime
      ∧ (∀ k L, mapLookup k net1.leasesByHw = some L →
          mapLookup k net.leasesByHw = some L) := by
    split at hS
    · split at hS
      · rw [Prod.mk.injEq] at hS
        obtain ⟨rfl, rfl⟩ := hS
        exact ⟨Or.inl rfl, rfl, fun k L hL => hL⟩
      · rename_i hallowed
        split at hS
        · rw [Prod.mk.injEq] at hS
          obtain ⟨rfl, rfl⟩ := hS
          refine ⟨Or.inr ⟨rfl, by simpa using hallowed⟩,
            leaseTime_removeLeaseByIp net pref, ?_⟩
          intro k L hL
          unfold Network.removeLeaseByIp at hL
          dsimp only at hL
          split at hL
          · exact hL
          · exact mapLookup_of_erase _ _ _ _ hL
        · rw [Prod.mk.injEq] at hS
          obtain ⟨rfl, rfl⟩ := hS
          exact ⟨Or.inr ⟨rfl, by simpa using hallowed⟩, rfl,
            fun k L hL => hL⟩
    · rw [Prod.mk.injEq] at hS
      obtain ⟨rfl, rfl⟩ := hS
      exact ⟨Or.inl rfl, rfl, fun k L hL => hL⟩
  obtain ⟨hpval, hpt, hplook⟩ := hstep1
  dsimp only at h
  -- Now the step-2 / step-3 / step-4 branches of the code.
  split at h
  · -- an unexpired existing lease for `hw` is returned
    rename_i hcond
    rw [Prod.mk.injEq] at h
    obtain ⟨rfl, rfl⟩ := h
    obtain ⟨hvalid, hnotexp⟩ := hcond
    right; right
    rcases hlk : mapLookup hw net1.leasesByHw with _ | L
    · exfalso
      unfold Network.getLeaseHw at hvalid
      rw [hlk] at hvalid
      simp [Network.isLeaseEntryValid, invalidLease] at hvalid
    · refine ⟨L, hplook hw L hlk, ?_, ?_, ?_⟩
      · unfold Network.getLeaseHw at hvalid
        rw [hlk] at hvalid
        simpa [Network.isLeaseEntryValid] using hvalid
      · unfold Network.getLeaseHw at hnotexp
        rw [hlk] at hnotexp
        rw [← isLeaseExpired_congr net1 net now L hpt]
        simpa using hnotexp
      · unfold Network.getLeaseHw
        rw [hlk]
        rfl
  · -- steps 3 and 4; whether or not an expired lease of `hw` was dropped
    -- on the way, the result is either the preferred address or a scan hit
    split at h <;> (try split at h) <;>
      (rw [Prod.mk.injEq] at h; obtain ⟨rfl, rfl⟩ := h) <;>
      first
      | exact hpval.elim (fun h0 => absurd h0 hr)
          (fun hp => Or.inr (Or.inl ⟨hp.1, hp.2⟩))
      | exact (scanRange_bounds _ now (net.dhcpLast + 1 - net.dhcpFirst)
            net.dhcpFirst).elim (fun h0 => absurd h0 hr)
          (fun hb => Or.inl (by omega))

/-- **C3 counterexample.** On the fresh default network
(pool 192.168.200.100 – 192.168.200.254), requesting the preferred address
192.168.200.50 — inside the network, hence allowed, but *below*
`dhcp_first` — returns that address: the claimed
`dhcp_first ≤ ip ≤ dhcp_last` is violated. -/
theorem C3_out_of_pool_counterexample :
    (testNet.getAvailableAddress 1000 11 3232286770).1 = 3232286770
    ∧ testNet.dhcpFirst = 3232286820
    ∧ ¬ (testNet.dhcpFirst ≤ 3232286770) := by decide

theorem C3_getAvailableAddress_range_witness :
    (testNet.getAvailableAddress 1000 11 0 = (3232286820, testNet)
      ∧ (3232286820 : Nat) ≠ 0)
    ∧ ((testNet.dhcpFirst ≤ 3232286820 ∧ 3232286820 ≤ testNet.dhcpLast)
        ∨ ((3232286820 : Nat) = 0 ∧ testNet.isIpAllowed 0 = true)
        ∨ (∃ L, mapLookup 11 testNet.leasesByHw = some L ∧ L.startTime ≠ 0
            ∧ testNet.isLeaseExpired 1000 L = false
            ∧ 3232286820 = L.ipAddress)) :=
  ⟨⟨by decide, by decide⟩,
   C3_getAvailableAddress_range testNet 1000 11 0 3232286820 testNet
     (by decide) (by decide)⟩

theorem IpIndexConsistent_removeLeaseByHw (net : Network) (hw : Nat)
    (hI : IpIndexConsistent net) :
    IpIndexConsistent (net.removeLeaseByHw hw) := by
  unfold Network.removeLeaseByHw
  dsimp only
  split
  · exact hI
  · rename_i hvalid
    intro q M hM hMv
    rw [mapLookup_erase] at hM
    by_cases hq : q = (net.getLeaseHw hw).ipAddress
    · simp [hq] at hM
    · rw [if_neg hq] at hM
      obtain ⟨hMip, hMhw⟩ := hI q M hM hMv
      refine ⟨hMip, ?_⟩
      dsimp only
      rw [mapLookup_erase]
      by_cases hMh : M.hwAddress = hw
      · exfalso
        rw [hMh] at hMhw
        have : net.getLeaseHw hw = M := by
          unfold Network.getLeaseHw
          rw [hMhw]
          rfl
        exact hq (by rw [← this] at hMip; omega)
      · rw [if_neg hMh]
        exact hMhw

theorem IpIndexConsistent_removeLeaseByIp (net : Network) (ip : Nat)
    (hI : IpIndexConsistent net) :
    IpIndexConsistent (net.removeLeaseByIp ip) := by
  unfold Network.removeLeaseByIp
  dsimp only
  split
  · exact hI
  · rename_i hvalid
    have hvalid' : (net.getLeaseIp ip).startTime ≠ 0 := by
      simpa [Network.isLeaseEntryValid] using hvalid
    have hlip : mapLookup ip net.leasesByIp = some (net.getLeaseIp ip) := by
      have hv2 := hvalid'
      unfold Network.getLeaseIp at hv2 ⊢
      rcases hk : mapLookup ip net.leasesByIp with _ | L
      · rw [hk] at hv2
        simp [invalidLease] at hv2
      · rfl
    obtain ⟨hLip, hLhw⟩ := hI ip _ hlip hvalid'
    intro q M hM hMv
    rw [mapLookup_erase] at hM
    by_cases hq : q = ip
    · simp [hq] at hM
    · rw [if_neg hq] at hM
      obtain ⟨hMip, hMhw⟩ := hI q M hM hMv
      refine ⟨hMip, ?_⟩
      dsimp only
      rw [mapLookup_erase]
      by_cases hMh : M.hwAddress = (net.getLeaseIp ip).hwAddress
      · exfalso
        rw [hMh] at hMhw
        rw [hLhw] at hMhw
        have heq : M = net.getLeaseIp ip := by
          injection hMhw with he
          exact he.symm
        exact hq (by rw [heq] at hMip; omega)
      · rw [if_neg hMh]
        exact hMhw

theorem IpIndexConsistent_addLease (net : Network) (now hw ip : Nat)
    (hI : IpIndexConsistent net)
    (hfree : ∀ M, mapLookup hw net.leasesByHw = some M →
      M.startTime = 0 ∨ M.ipAddress = ip) :
    IpIndexConsistent (net.addLease now hw ip) := by
  intro q M hM hMv
  unfold Network.addLease at *
  dsimp only at hM ⊢
  rw [mapLookup_insert] at hM
  by_cases hq : q = ip
  · rw [if_pos hq] at hM
    injection hM with hM
    subst hM
    exact ⟨hq.symm, by rw [mapLookup_insert, if_pos rfl]⟩
  · rw [if_neg hq] at hM
    obtain ⟨hMip, hMhw⟩ := hI q M hM hMv
    refine ⟨hMip, ?_⟩
    rw [mapLookup_insert]
    by_cases hMh : M.hwAddress = hw
    · exfalso
      rw [hMh] at hMhw
      rcases hfree M hMhw with h0 | hsame
      · exact hMv h0
      · exact hq (by rw [← hMip, hsame])
    · rw [if_neg hMh]
      exact hMhw

theorem IpIndexConsistent_reserveAddress (net : Network) (now hw ip : Nat)
    (hI : IpIndexConsistent net) :
    IpIndexConsistent (net.reserveAddress now hw ip).2 := by
  unfold Network.reserveAddress
  dsimp only
  split
  · exact hI
  · split
    · exact hI
    · split
      · rename_i hvalid
        refine IpIndexConsistent_addLease _ now hw ip
          (IpIndexConsistent_removeLeaseByHw net hw hI) ?_
        intro M hM
        exfalso
        unfold Network.removeLeaseByHw at hM
        dsimp only at hM
        rw [if_neg (by simp [hvalid.1])] at hM
        rw [mapLookup_erase] at hM
        simp at hM
      · rename_i hnot
        refine IpIndexConsistent_addLease _ now hw ip hI ?_
        intro M hM
        have hM' : net.getLeaseHw hw = M := by
          unfold Network.getLeaseHw
          rw [hM]
          rfl
        by_cases h0 : M.startTime = 0
        · exact Or.inl h0
        · right
          by_contra hne
          exact hnot ⟨by simp [Network.isLeaseEntryValid, hM', h0],
            by simp [hM', hne]⟩

theorem IpIndexConsistent_getAvailableAddress (net : Network)
    (now hw pref : Nat) (hI : IpIndexConsistent net) :
    IpIndexConsistent (net.getAvailableAddress now hw pref).2 := by
  unfold Network.getAvailableAddress
  split
  rename_i p net1 hS
  have hI1 : IpIndexConsistent net1 := by
    split at hS
    · split at hS
      · rw [Prod.mk.injEq] at hS
        obtain ⟨-, rfl⟩ := hS
        exact hI
      · split at hS
        · rw [Prod.mk.injEq] at hS
          obtain ⟨-, rfl⟩ := hS
          exact IpIndexConsistent_removeLeaseByIp net pref hI
        · rw [Prod.mk.injEq] at hS
          obtain ⟨-, rfl⟩ := hS
          exact hI
    · rw [Prod.mk.injEq] at hS
      obtain ⟨-, rfl⟩ := hS
      exact hI
  dsimp only
  split
  · exact hI1
  · split <;> (try split) <;>
      first
      | exact hI1
      | exact IpIndexConsistent_removeLeaseByHw net1 hw hI1

theorem IpIndexConsistent_applyPoolOp (net : Network) (op : PoolOp)
    (hI : IpIndexConsistent net) : IpIndexConsistent (applyPoolOp net op) := by
  cases op with
  | avail now hw pref => exact IpIndexConsistent_getAvailableAddress net now hw pref hI
  | reserve now hw ip => exact IpIndexConsistent_reserveAddress net now hw ip hI
  | release ip => exact IpIndexConsistent_removeLeaseByIp net ip hI

theorem IpIndexConsistent_runPoolOps (ops : List PoolOp) :
    ∀ net, IpIndexConsistent net → IpIndexConsistent (runPoolOps net ops) := by
  induction ops with
  | nil => intro net hI; exact hI
  | cons op ops ih =>
      intro net hI
      exact ih _ (IpIndexConsistent_applyPoolOp net op hI)

/-- `configure` establishes the one-sided invariant when the initial lease
list has pairwise-distinct hardware addresses. -/
theorem IpIndexConsistent_configure (cfg : NetworkConfiguration)
    (leases : List Lease)
    (hnodup : (leases.map Lease.hwAddress).Nodup) :
    IpIndexConsistent (Network.configure cfg leases) := by
  unfold Network.configure
  dsimp only
  suffices hgen : ∀ (ls : List Lease) (net : Network),
      IpIndexConsistent net →
      (∀ l ∈ ls, mapLookup l.hwAddress net.leasesByHw = none) →
      (ls.map Lease.hwAddress).Nodup →
      IpIndexConsistent (ls.foldl
        (fun net lease =>
          { net with
              leasesByHw := mapInsert lease.hwAddress lease net.leasesByHw
              leasesByIp := mapInsert lease.ipAddress lease net.leasesByIp })
        net) by
    refine hgen leases _ ?_ ?_ hnodup
    · intro q L hq
      simp [mapLookup] at hq
    · intro l hl
      rfl
  intro ls
  induction ls with
  | nil => intro net hI hfresh hnd; exact hI
  | cons l ls ih =>
      intro net hI hfresh hnd
      simp only [List.foldl_cons]
      refine ih _ ?_ ?_ ?_
      · -- one insertion step preserves the invariant
        intro q M hM hMv
        dsimp only at hM ⊢
        rw [mapLookup_insert] at hM
        by_cases hq : q = l.ipAddress
        · rw [if_pos hq] at hM
          injection hM with hM
          subst hM
          exact ⟨hq.symm, by rw [mapLookup_insert, if_pos rfl]⟩
        · rw [if_neg hq] at hM
          obtain ⟨hMip, hMhw⟩ := hI q M hM hMv
          refine ⟨hMip, ?_⟩
          rw [mapLookup_insert]
          by_cases hMh : M.hwAddress = l.hwAddress
          · exfalso
            have := hfresh l (List.mem_cons_self l ls)
            rw [hMh] at hMhw
            rw [this] at hMhw
            exact Option.noConfusion hMhw
          · rw [if_neg hMh]
            exact hMhw
      · -- the remaining hardware addresses are still fresh
        intro x hx
        dsimp only
        rw [mapLookup_insert]
        have hne : x.hwAddress ≠ l.hwAddress := by
          simp only [List.map_cons, List.nodup_cons] at hnd
          intro he
          exact hnd.1 (he ▸ List.mem_map_of_mem Lease.hwAddress hx)
        rw [if_neg hne]
        exact hfresh x (List.mem_cons_of_mem l hx)
      · simp only [List.map_cons, List.nodup_cons] at hnd
        exact hnd.2

/-- **C2 (amended).** `configure` performs no validation: every provided
lease — valid, invalid or out-of-range — is loaded into both indices, and
an initial list that repeats an IP (or a hardware address) immediately
violates bijection-on-valid.  What does hold is the one-sided invariant
`IpIndexConsistent` — every valid entry of `leases_by_ip` is keyed by its
own IP and mirrored exactly in `leases_by_hw` — established by a
`configure` whose lease list has pairwise-distinct hardware addresses and
preserved by every subsequent sequence of `getAvailableAddress`,
`reserveAddress` and `releaseAddress` calls.  (The full two-sided
bijection also fails on reachable states: reserving over an *expired*
foreign lease leaves the old holder's entry stale in `leases_by_hw`.) -/
theorem C2_ip_index_invariant (cfg : NetworkConfiguration)
    (leases : List Lease) (ops : List PoolOp)
    (hnodup : (leases.map Lease.hwAddress).Nodup) :
    IpIndexConsistent (runPoolOps (Network.configure cfg leases) ops) :=
  IpIndexConsistent_runPoolOps ops _ (IpIndexConsistent_configure cfg leases hnodup)

/-- **C2 counterexample.** `configure` loads two leases sharing the IP
192.168.200.110 (and also loads an out-of-range lease on 0.0.3.231 without
dropping it); the resulting state violates bijection-on-valid:
`leases_by_hw[1]` is a valid lease on 192.168.200.110 but
`leases_by_ip[192.168.200.110].hw = 2`. -/
theorem C2_configure_breaks_bijection :
    ¬ bijectionOnValid
        (Network.configure defaultConfig
          [⟨5, 1, 3232286830⟩, ⟨5, 2, 3232286830⟩])
    ∧ mapLookup 999
        (Network.configure defaultConfig [⟨5, 1, 999⟩]).leasesByIp
        = some ⟨5, 1, 999⟩ := by decide

theorem C2_ip_index_invariant_witness :
    (([⟨5, 1, 3232286830⟩, ⟨7, 2, 3232286831⟩] : List Lease).map
        Lease.hwAddress).Nodup
    ∧ IpIndexConsistent
        (runPoolOps
          (Network.configure defaultConfig
            [⟨5, 1, 3232286830⟩, ⟨7, 2, 3232286831⟩])
          [.reserve 1000 3 3232286832, .release 3232286830,
           .avail 2000 4 0]) :=
  ⟨by decide,
   C2_ip_index_invariant defaultConfig
     [⟨5, 1, 3232286830⟩, ⟨7, 2, 3232286831⟩]
     [.reserve 1000 3 3232286832, .release 3232286830, .avail 2000 4 0]
     (by decide)⟩

theorem length_beBytes (w v : Nat) : (beBytes w v).length = w := by
  induction w generalizing v with
  | zero => rfl
  | succ w ih => simp [beBytes, ih]

theorem mem_beBytes_lt (w v : Nat) : ∀ b ∈ beBytes w v, b < 256 := by
  induction w generalizing v with
  | zero => intro b hb; simp [beBytes] at hb
  | succ w ih =>
      intro b hb
      simp only [beBytes, List.mem_cons] at hb
      rcases hb with rfl | hb
      · exact Nat.mod_lt _ (by norm_num)
      · exact ih v b hb

/-- `x <<< 8 ||| b` is plain addition when `b` is a byte: the shifted value
has zero low bits. -/
theorem lor_shift_byte (a b : Nat) (hb : b < 256) :
    (a <<< 8) ||| b = a * 256 + b := by
  have key : ∀ k : Nat, ∀ a b : Nat, b < 2 ^ k →
      (a * 2 ^ k) ||| b = a * 2 ^ k + b := by
    intro k
    induction k with
    | zero =>
        intro a b hb
        interval_cases b
        simp
    | succ k ih =>
        intro a b hb
        have hdecomp := Nat.bit_testBit_zero_shiftRight_one b
        have ha : a * 2 ^ (k + 1) = Nat.bit false (a * 2 ^ k) := by
          simp [Nat.bit_val]
          ring
        rw [← hdecomp, ha, Nat.lor_bit]
        have hb1 : b >>> 1 < 2 ^ k := by
          rw [Nat.shiftRight_one]
          rw [pow_succ] at hb
          omega
        rw [ih a _ hb1]
        have h2 : b >>> 1 = b / 2 := Nat.shiftRight_one b
        cases htb : b.testBit 0 <;>
          · rw [htb] at hdecomp
            simp only [Nat.bit_val, Bool.false_or, htb] at hdecomp ⊢
            simp only [h2, Bool.toNat_false, Bool.toNat_true] at hdecomp ⊢
            omega
  have : a <<< 8 = a * 2 ^ 8 := Nat.shiftLeft_eq a 8
  rw [this]
  exact key 8 a b hb

theorem beFold_go (w : Nat) :
    ∀ v acc, (beBytes w v).foldl (fun value n => (value <<< 8) ||| n) acc
      = acc * 2 ^ (8 * w) + v % 2 ^ (8 * w) := by
  induction w with
  | zero => intro v acc; simp [beBytes, Nat.mod_one]
  | succ w ih =>
      intro v acc
      simp only [beBytes, List.foldl_cons]
      rw [ih v _, lor_shift_byte _ _ (Nat.mod_lt _ (by norm_num))]
      have h1 : 8 * (w + 1) = 8 * w + 8 := by ring
      have h2 : (2 : Nat) ^ (8 * w + 8) = 2 ^ (8 * w) * 256 := by
        rw [pow_add]; norm_num
      have h3 : v % (2 ^ (8 * w) * 256)
          = v % 2 ^ (8 * w) + 2 ^ (8 * w) * (v / 2 ^ (8 * w) % 256) :=
        Nat.mod_mul
      rw [h1, h2, h3]
      ring

theorem beFold_beBytes (w v : Nat) :
    beFold (beBytes w v) = v % 2 ^ (8 * w) := by
  unfold beFold
  rw [beFold_go]
  simp

theorem beFold_beBytes_of_lt (w v : Nat) (h : v < 2 ^ (8 * w)) :
    beFold (beBytes w v) = v := by
  rw [beFold_beBytes, Nat.mod_eq_of_lt h]

/-- Reading `mid.length` bytes at offset `pre.length` of `pre ++ mid ++
post` folds exactly `mid`. -/
theorem beReadAt_of_append (data pre mid post : List Nat) (off w : Nat)
    (hdata : data = pre ++ (mid ++ post)) (hoff : pre.length = off)
    (hw : mid.length = w) :
    beReadAt data off w = beFold mid := by
  subst hdata hoff hw
  unfold beReadAt
  rw [List.drop_left, List.take_left]

/-- **C7 (amended).** The decoder's exact minimum length is **241** bytes,
not 240: every input shorter than 241 bytes fails, and for every `n ≥ 241`
there is an input of length `n` that decodes successfully (so no input of
length ≥ 241 is rejected on account of its length alone). -/
theorem C7_minimum_length (data : List Nat) (n : Nat) :
    (data.length < 241 → deserializeBootp data = none)
    ∧ (241 ≤ n →
        ∃ d : List Nat, d.length = n ∧ (deserializeBootp d).isSome = true) := by
  constructor
  · intro h
    unfold deserializeBootp
    rw [if_pos h]
  · intro hn
    refine ⟨(List.replicate 236 0 ++ [99, 130, 83, 99]) ++
      (255 :: List.replicate (n - 241) 0), ?_, ?_⟩
    · simp
      omega
    · have hmagic : beReadAt ((List.replicate 236 0 ++ [99, 130, 83, 99]) ++
          (255 :: List.replicate (n - 241) 0)) 236 4 = 0x63825363 := by
        rw [beReadAt_of_append _ (List.replicate 236 0) [99, 130, 83, 99]
          (255 :: List.replicate (n - 241) 0) 236 4
          (by simp) (by simp) (by simp)]
        decide
      have hdrop : ((List.replicate 236 0 ++ [99, 130, 83, 99]) ++
          (255 :: List.replicate (n - 241) (0 : Nat))).drop 240
          = 255 :: List.replicate (n - 241) 0 := by
        rw [show (240 : Nat)
            = (List.replicate 236 (0 : Nat) ++ [99, 130, 83, 99]).length
          from by simp]
        exact List.drop_left _ _
      unfold deserializeBootp
      rw [if_neg (by simp)]
      dsimp only
      rw [hmagic, if_neg (by decide), hdrop]
      rw [show parseOpts (255 :: List.replicate (n - 241) 0) [] = some []
        from by simp [parseOpts, parseOptsGo]]
      rfl

/-- Witness for C7: the empty input (length 0 < 241) is rejected, and at
the boundary `n = 241` an accepted input of that exact length exists. -/
theorem C7_minimum_length_witness :
    ((List.length ([] : List Nat) < 241) ∧ (241 ≤ 241))
    ∧ deserializeBootp [] = none
    ∧ ∃ d : List Nat, d.length = 241 ∧ (deserializeBootp d).isSome = true :=
  ⟨⟨by decide, by decide⟩,
   (C7_minimum_length [] 241).1 (by decide),
   (C7_minimum_length [] 241).2 (by decide)⟩

/-- **C7 counterexample.** A 240-byte input — the 236-byte BOOTP header
plus the 4-byte magic, exactly the length the claim calls the minimum
accepted — is rejected purely on account of its length (`data.size() <
241`), while the same bytes followed by a single End option byte are
accepted: the exact minimum is 241, not 240. -/
theorem C7_240_bytes_rejected :
    deserializeBootp (List.replicate 236 0 ++ [99, 130, 83, 99]) = none
    ∧ (List.replicate 236 (0 : Nat) ++ [99, 130, 83, 99]).length = 240
    ∧ (deserializeBootp
        ((List.replicate 236 0 ++ [99, 130, 83, 99]) ++ [255])).isSome
        = true := by decide

/-- **C8 (amended).** Parsing is *not* lenient: when the options area is
exhausted before an End option is encountered, `deserializeBootpOptions`
returns failure (the loop falls through to `return false`) and the whole
decode fails — shown both for the empty options area and for an options
area of any number of Pad bytes, which the loop walks to exhaustion.  The
second half of the claim does hold: a frame without option 53 is treated
as `DHCP_UnknownMessage`, and the request engine produces no reply and no
state change for it. -/
theorem C8_no_end_fails_and_53_gates (acc : List (Nat × OptVal)) (k : Nat)
    (f : BOOTP) (net : Network) (offers : List (Nat × BOOTP)) (now : Nat) :
    parseOpts [] acc = none
    ∧ parseOpts (List.replicate k 0) acc = none
    ∧ (mapLookup 53 f.options = none →
        getMessageType f = 0
        ∧ handleRequest net offers now f = (none, net, offers)) := by
  refine ⟨rfl, ?_, ?_⟩
  · induction k with
    | zero => rfl
    | succ m ih =>
        rw [show List.replicate (m + 1) (0 : Nat) = 0 :: List.replicate m 0
          from rfl]
        simp only [parseOpts, parseOptsGo, List.length_cons,
          List.length_replicate] at ih ⊢
        simpa using ih
  · intro h53
    have hmsg : getMessageType f = 0 := by
      unfold getMessageType
      rw [h53]
    refine ⟨hmsg, ?_⟩
    unfold handleRequest
    rw [hmsg]

/-- **C8 counterexample.** A 241-byte input whose options area is a single
Pad byte (no End option before the buffer end) is *rejected*, not decoded
leniently as the claim states. -/
theorem C8_missing_end_rejected :
    deserializeBootp ((List.replicate 236 0 ++ [99, 130, 83, 99]) ++ [0])
      = none := by decide

theorem C8_no_end_fails_and_53_gates_witness :
    (mapLookup 53 (BOOTP.mk 1 1 6 0 0 0 0 0 0 0 0 5 1666417251 []).options
        = none)
    ∧ parseOpts [] [] = none
    ∧ parseOpts (List.replicate 3 0) [] = none
    ∧ getMessageType (BOOTP.mk 1 1 6 0 0 0 0 0 0 0 0 5 1666417251 []) = 0
    ∧ handleRequest testNet [] 1000
        (BOOTP.mk 1 1 6 0 0 0 0 0 0 0 0 5 1666417251 [])
        = (none, testNet, []) :=
  ⟨by decide,
   (C8_no_end_fails_and_53_gates [] 3
     (BOOTP.mk 1 1 6 0 0 0 0 0 0 0 0 5 1666417251 []) testNet [] 1000).1,
   (C8_no_end_fails_and_53_gates [] 3
     (BOOTP.mk 1 1 6 0 0 0 0 0 0 0 0 5 1666417251 []) testNet [] 1000).2.1,
   ((C8_no_end_fails_and_53_gates [] 3
     (BOOTP.mk 1 1 6 0 0 0 0 0 0 0 0 5 1666417251 []) testNet [] 1000).2.2
     (by decide)).1,
   ((C8_no_end_fails_and_53_gates [] 3
     (BOOTP.mk 1 1 6 0 0 0 0 0 0 0 0 5 1666417251 []) testNet [] 1000).2.2
     (by decide)).2⟩

/-! ## C6: shape and target of NAK replies -/

theorem sid_removeLeaseByHw (net : Network) (hw : Nat) :
    (net.removeLeaseByHw hw).dhcpServerIdentifier
      = net.dhcpServerIdentifier := by
  unfold Network.removeLeaseByHw; dsimp only; split <;> rfl

theorem sid_removeLeaseByIp (net : Network) (ip : Nat) :
    (net.removeLeaseByIp ip).dhcpServerIdentifier
      = net.dhcpServerIdentifier := by
  unfold Network.removeLeaseByIp; dsimp only; split <;> rfl

theorem sid_reserveAddress (net : Network) (now hw ip : Nat) :
    (net.reserveAddress now hw ip).2.dhcpServerIdentifier
      = net.dhcpServerIdentifier := by
  unfold Network.reserveAddress
  dsimp only
  split
  · rfl
  · split
    · rfl
    · show (Network.addLease _ _ _ _).dhcpServerIdentifier = _
      unfold Network.addLease
      dsimp only
      split
      · rw [sid_removeLeaseByHw]
      · rfl

theorem sid_getAvailableAddress (net : Network) (now hw pref : Nat) :
    (net.getAvailableAddress now hw pref).2.dhcpServerIdentifier
      = net.dhcpServerIdentifier := by
  unfold Network.getAvailableAddress
  split
  rename_i p net1 hS
  have h1 : net1.dhcpServerIdentifier = net.dhcpServerIdentifier := by
    split at hS <;>
      [skip;
       (rw [Prod.mk.injEq] at hS; exact hS.2 ▸ rfl)]
    split at hS <;>
      [(rw [Prod.mk.injEq] at hS; exact hS.2 ▸ rfl); skip]
    split at hS <;> rw [Prod.mk.injEq] at hS
    · rw [← hS.2, sid_removeLeaseByIp]
    · exact hS.2 ▸ rfl
  dsimp only
  split
  · exact h1
  · split <;> (try split) <;>
      simp [sid_removeLeaseByHw, h1]

/-- The options written by `markOfferWithNak` are exactly MessageType=NAK
and ServerIdentifier. -/
theorem markOfferWithNak_options (sid : Nat) (offer : BOOTP) :
    (markOfferWithNak sid offer).options
      = [(53, OptVal.msgType 6), (54, OptVal.u32 sid)] := rfl

theorem requestCommon_nak_shape (net : Network) (offers : List (Nat × BOOTP))
    (now : Nat) (bootp : BOOTP) (t : Nat) (f : BOOTP)
    (h : (requestCommon net offers now bootp).1 = some (t, f))
    (hnak : mapLookup 53 f.options = some (OptVal.msgType 6)) :
    (f.options = [(53, OptVal.msgType 6),
        (54, OptVal.u32 net.dhcpServerIdentifier)]
      ∧ f.yiaddr = 0 ∧ f.ciaddr = 0)
    ∧ t = (net.getAvailableAddress now bootp.chaddr
        (getRequestedIpAddress bootp)).1 := by
  unfold requestCommon at h
  dsimp only at h
  split at h
  · -- inconsistent binding: NAK targeted at the allocator's answer
    split at h
    · dsimp only at h
      injection h with h
      rw [Prod.mk.injEq] at h
      obtain ⟨rfl, rfl⟩ := h
      refine ⟨⟨?_, rfl, rfl⟩, rfl⟩
      rw [markOfferWithNak_options, sid_getAvailableAddress]
    · dsimp only at h
      exact absurd h (by simp)
  · -- reservation attempt: ACK on success, NAK on failure
    split at h
    · dsimp only at h
      injection h with h
      rw [Prod.mk.injEq] at h
      obtain ⟨rfl, rfl⟩ := h
      by_cases hok : ((net.getAvailableAddress now bootp.chaddr
          (getRequestedIpAddress bootp)).2.reserveAddress now bootp.chaddr
          (net.getAvailableAddress now bootp.chaddr
            (getRequestedIpAddress bootp)).1).1 = true
      · exfalso
        rw [if_pos hok] at hnak
        dsimp only at hnak
        rw [mapLookup_insert] at hnak
        simp at hnak
      · rw [if_neg hok] at hnak ⊢
        refine ⟨⟨?_, rfl, rfl⟩, rfl⟩
        rw [markOfferWithNak_options, sid_reserveAddress,
          sid_getAvailableAddress]
    · dsimp only at h
      exact absurd h (by simp)

/-- **C6 (amended).** Every NAK emitted by `handleDhcpRequest` has its
options cleared down to exactly MessageType=NAK and ServerIdentifier and
has `yiaddr = 0` and `ciaddr = 0`; but only the unknown-client NAK is
targeted at the network's directed broadcast address — the
inconsistent-binding and failed-reservation NAKs are targeted at the
address returned by `getAvailableAddress` (see the counterexample). -/
theorem C6_nak_shape (net : Network) (offers : List (Nat × BOOTP))
    (now : Nat) (bootp : BOOTP) (t : Nat) (f : BOOTP)
    (h : (handleDhcpRequest net offers now bootp).1 = some (t, f))
    (hnak : mapLookup 53 f.options = some (OptVal.msgType 6)) :
    f.options = [(53, OptVal.msgType 6),
        (54, OptVal.u32 net.dhcpServerIdentifier)]
    ∧ f.yiaddr = 0 ∧ f.ciaddr = 0
    ∧ (t = net.getBroadcastAddress
        ∨ t = (net.getAvailableAddress now bootp.chaddr
            (getRequestedIpAddress bootp)).1) := by
  unfold handleDhcpRequest at h
  split at h
  · -- a pending offer exists
    obtain ⟨⟨h1, h2, h3⟩, h4⟩ :=
      requestCommon_nak_shape net offers now bootp t f h hnak
    exact ⟨h1, h2, h3, Or.inr h4⟩
  · dsimp only at h
    split at h
    · -- unknown client: NAK at the broadcast address
      split at h
      · dsimp only at h
        injection h with h
        rw [Prod.mk.injEq] at h
        obtain ⟨rfl, rfl⟩ := h
        exact ⟨markOfferWithNak_options _ _, rfl, rfl, Or.inl rfl⟩
      · dsimp only at h
        exact absurd h (by simp)
    · -- known client: synthesised offer, then the common path
      obtain ⟨⟨h1, h2, h3⟩, h4⟩ :=
        requestCommon_nak_shape net _ now bootp t f h hnak
      exact ⟨h1, h2, h3, Or.inr h4⟩

/-- **C6 counterexample.** A REQUEST from MAC 7 whose pending offer has
`yiaddr = 192.168.200.100` but which carries no RequestedIp option takes
the inconsistent-binding NAK path; the produced reply is a NAK, yet its
target is 192.168.200.100 — the address `getAvailableAddress` returned —
and *not* the network's directed broadcast 192.168.200.255 as the claim
requires for every NAK path. -/
theorem C6_nak_target_not_broadcast :
    ((handleDhcpRequest testNet [(7, pendingOffer)] 1000 reqFrame).1.map
        (fun r => (r.1, mapLookup 53 r.2.options)))
      = some (3232286820, some (OptVal.msgType 6))
    ∧ testNet.getBroadcastAddress = 3232286975
    ∧ (3232286820 : Nat) ≠ 3232286975 := by decide

theorem C6_nak_shape_witness :
    ((handleDhcpRequest testNet [] 1000 reqFrame).1
        = some (3232286975, nakUnknownFrame)
      ∧ mapLookup 53 nakUnknownFrame.options = some (OptVal.msgType 6))
    ∧ nakUnknownFrame.options = [(53, OptVal.msgType 6),
        (54, OptVal.u32 testNet.dhcpServerIdentifier)]
    ∧ nakUnknownFrame.yiaddr = 0 ∧ nakUnknownFrame.ciaddr = 0
    ∧ (3232286975 = testNet.getBroadcastAddress
        ∨ 3232286975 = (testNet.getAvailableAddress 1000 reqFrame.chaddr
            (getRequestedIpAddress reqFrame)).1) :=
  ⟨⟨by decide, by decide⟩,
   C6_nak_shape testNet [] 1000 reqFrame 3232286975 nakUnknownFrame
     (by decide) (by decide)⟩

theorem encodeHeader_length (f : BOOTP) : (encodeHeader f).length = 240 := by
  simp [encodeHeader, length_beBytes]

theorem encodeHeader_drop (f : BOOTP) (tail : List Nat) :
    (encodeHeader f ++ tail).drop 240 = tail := rfl

/-- All the fixed-header reads performed by `deserializeBootp` on a buffer
that begins with `encodeHeader f` evaluate to the frame's fields,
truncated to their wire widths.  Each read reduces definitionally to the
big-endian fold of the corresponding `beBytes` chunk. -/
theorem encodeHeader_reads (f : BOOTP) (tail : List Nat) :
    ((encodeHeader f ++ tail).getD 0 0 = f.operation % 256
      ∧ (encodeHeader f ++ tail).getD 1 0 = f.hardwareType % 256
      ∧ (encodeHeader f ++ tail).getD 2 0 = f.hardwareAddressLength % 256
      ∧ (encodeHeader f ++ tail).getD 3 0 = f.hops % 256)
    ∧ beReadAt (encodeHeader f ++ tail) 4 4 = f.transactionId % 2 ^ 32
    ∧ beReadAt (encodeHeader f ++ tail) 8 2 = f.secondsElapsed % 2 ^ 16
    ∧ beReadAt (encodeHeader f ++ tail) 10 2 = f.flags % 2 ^ 16
    ∧ beReadAt (encodeHeader f ++ tail) 12 4 = f.ciaddr % 2 ^ 32
    ∧ beReadAt (encodeHeader f ++ tail) 16 4 = f.yiaddr % 2 ^ 32
    ∧ beReadAt (encodeHeader f ++ tail) 20 4 = f.siaddr % 2 ^ 32
    ∧ beReadAt (encodeHeader f ++ tail) 24 4 = f.giaddr % 2 ^ 32
    ∧ beReadAt (encodeHeader f ++ tail) 28 8
        = f.chaddr * 2 ^ 16 % 2 ^ 64 % 2 ^ 64
    ∧ beReadAt (encodeHeader f ++ tail) 236 4 = f.magic % 2 ^ 32 := by
  refine ⟨⟨rfl, rfl, rfl, rfl⟩, ?_, ?_, ?_, ?_, ?_, ?_, ?_, ?_, ?_⟩
  · rw [show beReadAt (encodeHeader f ++ tail) 4 4
        = beFold (beBytes 4 f.transactionId) from rfl]
    exact beFold_beBytes 4 _
  · rw [show beReadAt (encodeHeader f ++ tail) 8 2
        = beFold (beBytes 2 f.secondsElapsed) from rfl]
    exact beFold_beBytes 2 _
  · rw [show beReadAt (encodeHeader f ++ tail) 10 2
        = beFold (beBytes 2 f.flags) from rfl]
    exact beFold_beBytes 2 _
  · rw [show beReadAt (encodeHeader f ++ tail) 12 4
        = beFold (beBytes 4 f.ciaddr) from rfl]
    exact beFold_beBytes 4 _
  · rw [show beReadAt (encodeHeader f ++ tail) 16 4
        = beFold (beBytes 4 f.yiaddr) from rfl]
    exact beFold_beBytes 4 _
  · rw [show beReadAt (encodeHeader f ++ tail) 20 4
        = beFold (beBytes 4 f.siaddr) from rfl]
    exact beFold_beBytes 4 _
  · rw [show beReadAt (encodeHeader f ++ tail) 24 4
        = beFold (beBytes 4 f.giaddr) from rfl]
    exact beFold_beBytes 4 _
  · rw [show beReadAt (encodeHeader f ++ tail) 28 8
        = beFold (beBytes 8 (f.chaddr * 2 ^ 16 % 2 ^ 64)) from rfl]
    exact beFold_beBytes 8 _
  · rw [show beReadAt (encodeHeader f ++ tail) 236 4
        = beFold (beBytes 4 f.magic) from rfl]
    exact beFold_beBytes 4 _

theorem parseOptsGo_nil (s : Nat) (acc : List (Nat × OptVal)) :
    parseOptsGo s [] acc = none := by
  cases s <;> rfl

/-- Any step bound at least the buffer length gives the same parse: the
bound is an artefact of making the TLV loop structurally recursive. -/
theorem parseOptsGo_irrel (s1 : Nat) : ∀ (s2 : Nat) (buffer : List Nat)
    (acc : List (Nat × OptVal)), buffer.length ≤ s1 → buffer.length ≤ s2 →
    parseOptsGo s1 buffer acc = parseOptsGo s2 buffer acc := by
  induction s1 with
  | zero =>
      intro s2 buffer acc h1 h2
      have hb : buffer = [] := List.eq_nil_of_length_eq_zero (Nat.le_zero.mp h1)
      subst hb
      rw [parseOptsGo_nil, parseOptsGo_nil]
  | succ t1 ih =>
      intro s2 buffer acc h1 h2
      match buffer with
      | [] => rw [parseOptsGo_nil, parseOptsGo_nil]
      | key :: rest =>
        match s2 with
        | 0 => simp at h2
        | t2 + 1 =>
          simp only [List.length_cons, Nat.add_le_add_iff_right] at h1 h2
          show parseOptsGo (t1 + 1) (key :: rest) acc
            = parseOptsGo (t2 + 1) (key :: rest) acc
          simp only [parseOptsGo]
          split
          · exact ih t2 rest acc h1 h2
          · split
            · rfl
            · split
              · rfl
              · rename_i len tail
                simp only [List.length_cons] at h1 h2
                have hdl : ∀ n, (tail.drop n).length ≤ t1 := by
                  intro n
                  simp only [List.length_drop]
                  omega
                have hdl2 : ∀ n, (tail.drop n).length ≤ t2 := by
                  intro n
                  simp only [List.length_drop]
                  omega
                split
                · split
                  · rfl
                  · exact ih t2 _ _ (hdl len) (hdl2 len)
                · split
                  · split
                    · rfl
                    · exact ih t2 _ _ (hdl len) (hdl2 len)
                  · split
                    · split
                      · rfl
                      · split
                        · rfl
                        · exact ih t2 _ _ (hdl len) (hdl2 len)
                    · exact ih t2 _ _ (hdl len) (hdl2 len)

theorem parseOptsGo_toParseOpts (s : Nat) (buffer : List Nat)
    (acc : List (Nat × OptVal)) (h : buffer.length ≤ s) :
    parseOptsGo s buffer acc = parseOpts buffer acc :=
  parseOptsGo_irrel s buffer.length buffer acc h le_rfl

theorem parseOpts_end (padding : List Nat) (acc : List (Nat × OptVal)) :
    parseOpts (255 :: padding) acc = some acc := rfl

theorem length_flat_beBytes (ips : List Nat) :
    (ips.flatMap (fun ip => beBytes 4 ip)).length = 4 * ips.length := by
  induction ips with
  | nil => rfl
  | cons ip rest ih =>
      simp only [List.flatMap_cons, List.length_append, length_beBytes, ih,
        List.length_cons]
      ring

theorem map_mod_256_eq (ps : List Nat) (h : ∀ p ∈ ps, p < 256) :
    ps.map (fun p => p % 256) = ps := by
  induction ps with
  | nil => rfl
  | cons p rest ih =>
      have hp : p % 256 = p := Nat.mod_eq_of_lt (h p (List.mem_cons_self p rest))
      simp only [List.map_cons, hp]
      rw [ih fun q hq => h q (List.mem_cons_of_mem p hq)]

theorem take_append_of_length {α : Type} (l1 l2 : List α) (n : Nat)
    (h : l1.length = n) : (l1 ++ l2).take n = l1 := by
  subst h
  exact List.take_left _ _

theorem drop_append_of_length {α : Type} (l1 l2 : List α) (n : Nat)
    (h : l1.length = n) : (l1 ++ l2).drop n = l2 := by
  subst h
  exact List.drop_left _ _

theorem parseIpList_roundtrip (ips : List Nat) (tail : List Nat)
    (h : ∀ ip ∈ ips, ip < 2 ^ 32) :
    parseIpList ips.length (ips.flatMap (fun ip => beBytes 4 ip) ++ tail)
      = some ips := by
  induction ips with
  | nil => rfl
  | cons ip rest ih =>
      simp only [List.flatMap_cons, List.append_assoc, List.length_cons]
      unfold parseIpList
      rw [if_neg (by
        simp only [List.length_append, length_beBytes]
        omega)]
      rw [take_append_of_length _ _ 4 (length_beBytes 4 ip),
        drop_append_of_length _ _ 4 (length_beBytes 4 ip)]
      rw [ih fun q hq => h q (List.mem_cons_of_mem ip hq)]
      rw [beFold_beBytes_of_lt 4 ip (h ip (List.mem_cons_self ip rest))]

theorem isIpListKey_ne (k : Nat) (h : isIpListKey k = true) :
    k ≠ 0 ∧ k ≠ 255 ∧ k ≠ 53 ∧ k ≠ 55 ∧ k ≠ 51 ∧ k ≠ 54 := by
  simp only [isIpListKey, decide_eq_true_eq] at h
  rcases h with rfl | rfl | rfl | rfl | rfl <;> refine ⟨?_, ?_, ?_, ?_, ?_, ?_⟩ <;> decide

/-- The natural unfolding of one TLV step, with the step bound hidden. -/
theorem parseOpts_cons (key : Nat) (rest : List Nat)
    (acc : List (Nat × OptVal)) :
    parseOpts (key :: rest) acc =
      if key = 0 then parseOpts rest acc
      else if key = 255 then some acc
      else
        match rest with
        | [] => none
        | len :: tail =>
            if isIpListKey key then
              match parseIpList (len / 4) tail with
              | none => none
              | some ips =>
                  parseOpts (tail.drop len)
                    (mapInsert key (OptVal.ipList ips) acc)
            else if key = 55 then
              if tail.length < len then none
              else
                parseOpts (tail.drop len)
                  (mapInsert 55 (OptVal.paramList (tail.take len)) acc)
            else if key = 53 then
              if len ≠ 1 then none
              else
                match tail.head? with
                | none => none
                | some t =>
                    parseOpts (tail.drop len)
                      (mapInsert 53 (OptVal.msgType t) acc)
            else parseOpts (tail.drop len) acc := by
  show parseOptsGo (rest.length + 1) (key :: rest) acc = _
  simp only [parseOptsGo]
  split
  · exact parseOptsGo_toParseOpts _ _ _ le_rfl
  · split
    · rfl
    · split
      · rfl
      · rename_i len tail
        have hd : ∀ n, (tail.drop n).length ≤ (len :: tail).length := by
          intro n
          simp only [List.length_drop, List.length_cons]
          omega
        split
        · split
          · rfl
          · exact parseOptsGo_toParseOpts _ _ _ (hd len)
        · split
          · split
            · rfl
            · exact parseOptsGo_toParseOpts _ _ _ (hd len)
          · split
            · split
              · rfl
              · split
                · rfl
                · exact parseOptsGo_toParseOpts _ _ _ (hd len)
            · exact parseOptsGo_toParseOpts _ _ _ (hd len)

/-- Parsing one serialized well-formed option: keys 51 and 54 are dropped,
every other recognised key is stored back with exactly its original
payload, and the parser continues right after the option. -/
theorem parseOpts_serialized_option (k : Nat) (v : OptVal) (tail : List Nat)
    (acc : List (Nat × OptVal)) (h : wellFormedOpt (k, v)) :
    parseOpts (k :: (serializeOptVal v ++ tail)) acc
      = parseOpts tail
          (if k = 51 ∨ k = 54 then acc else mapInsert k v acc) := by
  cases v with
  | ipList ips =>
      obtain ⟨hk, hlen, hbounds⟩ := h
      obtain ⟨hk0, hk255, hk53, hk55, hk51, hk54⟩ := isIpListKey_ne k hk
      have hmod : 4 * ips.length % 256 = 4 * ips.length :=
        Nat.mod_eq_of_lt (by omega)
      rw [show serializeOptVal (OptVal.ipList ips) ++ tail
          = (4 * ips.length % 256)
            :: ((ips.flatMap (fun ip => beBytes 4 ip)) ++ tail) from rfl]
      rw [parseOpts_cons, if_neg hk0, if_neg hk255]
      simp only
      rw [if_pos hk, hmod, Nat.mul_div_cancel_left ips.length (by norm_num),
        parseIpList_roundtrip ips tail hbounds]
      simp only
      rw [drop_append_of_length _ _ (4 * ips.length)
        (length_flat_beBytes ips)]
      rw [if_neg (by
        rintro (rfl | rfl)
        · exact hk51 rfl
        · exact hk54 rfl)]
  | msgType t =>
      obtain ⟨rfl, ht⟩ := h
      rw [show serializeOptVal (OptVal.msgType t) ++ tail
          = 1 :: ((t % 256) :: tail) from rfl]
      rw [parseOpts_cons]
      simp only [isIpListKey]
      norm_num
      rw [Nat.mod_eq_of_lt ht]
  | paramList ps =>
      obtain ⟨rfl, hlen, hbounds⟩ := h
      have hmod : ps.length % 256 = ps.length := Nat.mod_eq_of_lt (by omega)
      rw [show serializeOptVal (OptVal.paramList ps) ++ tail
          = (ps.length % 256)
            :: ((ps.map (fun p => p % 256)) ++ tail) from rfl]
      rw [parseOpts_cons]
      simp only [isIpListKey, hmod]
      norm_num
      rw [map_mod_256_eq ps hbounds]
  | u32 v =>
      obtain ⟨hk, hv⟩ := h
      have hk0 : k ≠ 0 := by rcases hk with rfl | rfl <;> decide
      have hk255 : k ≠ 255 := by rcases hk with rfl | rfl <;> decide
      have hkip : isIpListKey k = false := by
        rcases hk with rfl | rfl <;> decide
      have hk55 : k ≠ 55 := by rcases hk with rfl | rfl <;> decide
      have hk53 : k ≠ 53 := by rcases hk with rfl | rfl <;> decide
      rw [show serializeOptVal (OptVal.u32 v) ++ tail
          = 4 :: (beBytes 4 v ++ tail) from rfl]
      rw [parseOpts_cons, if_neg hk0, if_neg hk255]
      simp only [hkip, Bool.false_eq_true, if_false, if_neg hk55,
        if_neg hk53]
      rw [drop_append_of_length _ _ 4 (length_beBytes 4 v)]
      rw [if_pos hk]

/-- Parsing the concatenation of serialized well-formed options: the
parser accumulates exactly the non-51/54 options, in order. -/
theorem parseOpts_flat (opts : List (Nat × OptVal)) (tail : List Nat) :
    ∀ acc : List (Nat × OptVal), (∀ kv ∈ opts, wellFormedOpt kv) →
    parseOpts ((opts.flatMap (fun kv => kv.1 :: serializeOptVal kv.2))
        ++ tail) acc
      = parseOpts tail
          (opts.foldl (fun acc kv =>
            if kv.1 = 51 ∨ kv.1 = 54 then acc
            else mapInsert kv.1 kv.2 acc) acc) := by
  induction opts with
  | nil => intro acc _; simp
  | cons kv rest ih =>
      intro acc hwf
      obtain ⟨k, v⟩ := kv
      simp only [List.flatMap_cons, List.append_assoc, List.cons_append,
        List.foldl_cons]
      rw [parseOpts_serialized_option k v _ acc
        (hwf (k, v) (List.mem_cons_self _ _))]
      exact ih _ (fun kv hkv => hwf kv (List.mem_cons_of_mem _ hkv))

theorem mapLookup_mem {α : Type} (k : Nat) (v : α) (l : List (Nat × α))
    (h : mapLookup k l = some v) : (k, v) ∈ l := by
  induction l with
  | nil => simp [mapLookup] at h
  | cons p rest ih =>
      obtain ⟨k', v'⟩ := p
      by_cases hk : k = k'
      · rw [mapLookup, if_pos hk] at h
        injection h with h
        subst hk h
        exact List.mem_cons_self _ _
      · rw [mapLookup, if_neg hk] at h
        exact List.mem_cons_of_mem _ (ih h)

theorem mapLookup_eq_none {α : Type} (k : Nat) (l : List (Nat × α))
    (h : k ∉ l.map Prod.fst) : mapLookup k l = none := by
  induction l with
  | nil => rfl
  | cons p rest ih =>
      obtain ⟨k', v'⟩ := p
      simp only [List.map_cons, List.mem_cons, not_or] at h
      rw [mapLookup, if_neg h.1]
      exact ih h.2

theorem mapLookup_filter_5354 (l : List (Nat × OptVal)) (k : Nat) :
    mapLookup k (l.filter (fun kv => kv.1 ≠ 53 ∧ kv.1 ≠ 54))
      = if k ≠ 53 ∧ k ≠ 54 then mapLookup k l else none := by
  induction l with
  | nil => simp [mapLookup]
  | cons p rest ih =>
      obtain ⟨k', v'⟩ := p
      by_cases hp : k' ≠ 53 ∧ k' ≠ 54
      · rw [show List.filter (fun kv => decide (kv.1 ≠ 53 ∧ kv.1 ≠ 54))
            ((k', v') :: rest)
            = (k', v') :: List.filter
                (fun kv => decide (kv.1 ≠ 53 ∧ kv.1 ≠ 54)) rest from by
          simp [List.filter, hp.1, hp.2]]
        by_cases hk : k = k'
        · subst hk
          rw [mapLookup, if_pos rfl, mapLookup, if_pos rfl, if_pos hp]
        · rw [mapLookup, if_neg hk, mapLookup, if_neg hk, ih]
      · rw [show List.filter (fun kv => decide (kv.1 ≠ 53 ∧ kv.1 ≠ 54))
            ((k', v') :: rest)
            = List.filter (fun kv => decide (kv.1 ≠ 53 ∧ kv.1 ≠ 54)) rest
          from by
          simp only [not_and_or, not_not] at hp
          rcases hp with rfl | rfl <;> simp [List.filter]]
        rw [ih]
        by_cases hk : k = k'
        · subst hk
          rw [if_neg (by tauto), if_neg (by tauto)]
        · rw [mapLookup, if_neg hk]
  
theorem mapLookup_foldl_skip_insert (l : List (Nat × OptVal)) :
    ∀ (acc : List (Nat × OptVal)) (k : Nat), (l.map Prod.fst).Nodup →
    mapLookup k (l.foldl (fun acc kv =>
        if kv.1 = 51 ∨ kv.1 = 54 then acc
        else mapInsert kv.1 kv.2 acc) acc)
      = if k ≠ 51 ∧ k ≠ 54 ∧ (mapLookup k l).isSome
        then mapLookup k l
        else mapLookup k acc := by
  induction l with
  | nil =>
      intro acc k _
      simp [mapLookup]
  | cons p rest ih =>
      intro acc k hnd
      obtain ⟨a, b⟩ := p
      simp only [List.map_cons, List.nodup_cons] at hnd
      obtain ⟨ha, hnd⟩ := hnd
      simp only [List.foldl_cons]
      rw [ih _ k hnd]
      by_cases hk : k = a
      · subst hk
        have hrest : mapLookup k rest = none :=
          mapLookup_eq_none k rest ha
        rw [hrest]
        simp only [Option.isSome_none, Bool.false_eq_true, and_false,
          if_false]
        by_cases hskip : k = 51 ∨ k = 54
        · rw [if_pos hskip, mapLookup, if_pos rfl,
            if_neg (by tauto)]
        · rw [if_neg hskip, mapLookup_insert, if_pos rfl, mapLookup,
            if_pos rfl,
            if_pos ⟨by tauto, by tauto, rfl⟩]
      · rw [show mapLookup k ((a, b) :: rest) = mapLookup k rest from by
          rw [mapLookup, if_neg hk]]
        by_cases hskip : a = 51 ∨ a = 54
        · rw [if_pos hskip]
        · rw [if_neg hskip, mapLookup_insert, if_neg hk]

/-- **C5 (amended).** For every well-formed frame with recognised options
and options 53 and 54 present, serialization succeeds and decoding the
produced bytes succeeds and returns the frame with *all fixed header
fields identical* and the options map equal up to ordering and padding —
**except** that options 51 (IPLeaseTime) and 54 (ServerIdentifier) are
discarded by the decoder (its `deserializeBootpOptions` explicitly skips
those keys as "not applicable"), so the claimed equality of option maps
fails for them (see the counterexample). -/
theorem C5_roundtrip (f : BOOTP) (hwf : WellFormedFrame f) :
    ∃ d g, serializeBootp f = some d ∧ deserializeBootp d = some g
      ∧ g.operation = f.operation ∧ g.hardwareType = f.hardwareType
      ∧ g.hardwareAddressLength = f.hardwareAddressLength ∧ g.hops = f.hops
      ∧ g.transactionId = f.transactionId
      ∧ g.secondsElapsed = f.secondsElapsed
      ∧ g.flags = f.flags ∧ g.ciaddr = f.ciaddr ∧ g.yiaddr = f.yiaddr
      ∧ g.siaddr = f.siaddr ∧ g.giaddr = f.giaddr ∧ g.chaddr = f.chaddr
      ∧ g.magic = f.magic
      ∧ ∀ k, mapLookup k g.options
          = if k = 51 ∨ k = 54 then none else mapLookup k f.options := by
  obtain ⟨hop, hht, hhl, hhops, hxid, hsecs, hflags, hci, hyi, hsi, hgi,
    hch, hmagic, hnd, hopts, h53, h54⟩ := hwf
  rcases hv53 : mapLookup 53 f.options with _ | v53
  · exact absurd hv53 h53
  rcases hv54 : mapLookup 54 f.options with _ | v54
  · exact absurd hv54 h54
  have wf53 : wellFormedOpt (53, v53) :=
    hopts _ (mapLookup_mem 53 v53 f.options hv53)
  have wf54 : wellFormedOpt (54, v54) :=
    hopts _ (mapLookup_mem 54 v54 f.options hv54)
  obtain ⟨pad, hser⟩ : ∃ pad, serializeBootp f
      = some ((encodeHeader f ++ (53 :: serializeOptVal v53)
          ++ (54 :: serializeOptVal v54)
          ++ (f.options.filter
              (fun kv => kv.1 ≠ 53 ∧ kv.1 ≠ 54)).flatMap
              (fun kv => kv.1 :: serializeOptVal kv.2)
          ++ [255]) ++ pad) :=
    ⟨_, by unfold serializeBootp; rw [hv53, hv54]⟩
  have hshape : (encodeHeader f ++ (53 :: serializeOptVal v53)
      ++ (54 :: serializeOptVal v54)
      ++ (f.options.filter (fun kv => kv.1 ≠ 53 ∧ kv.1 ≠ 54)).flatMap
          (fun kv => kv.1 :: serializeOptVal kv.2)
      ++ [255]) ++ pad
      = encodeHeader f ++ (53 :: (serializeOptVal v53
          ++ (54 :: (serializeOptVal v54
          ++ ((f.options.filter (fun kv => kv.1 ≠ 53 ∧ kv.1 ≠ 54)).flatMap
              (fun kv => kv.1 :: serializeOptVal kv.2)
            ++ (255 :: pad)))))) := by
    simp [List.append_assoc]
  rw [hshape] at hser
  obtain ⟨⟨r0, r1, r2, r3⟩, rxid, rsecs, rflags, rci, ryi, rsi, rgi, rch,
    rmagic⟩ := encodeHeader_reads f (53 :: (serializeOptVal v53
      ++ (54 :: (serializeOptVal v54
      ++ ((f.options.filter (fun kv => kv.1 ≠ 53 ∧ kv.1 ≠ 54)).flatMap
          (fun kv => kv.1 :: serializeOptVal kv.2)
        ++ (255 :: pad))))))
  have hfwf : ∀ kv ∈ f.options.filter (fun kv => kv.1 ≠ 53 ∧ kv.1 ≠ 54),
      wellFormedOpt kv := fun kv hkv => hopts kv (List.mem_of_mem_filter hkv)
  have hparse : parseOpts (53 :: (serializeOptVal v53
      ++ (54 :: (serializeOptVal v54
      ++ ((f.options.filter (fun kv => kv.1 ≠ 53 ∧ kv.1 ≠ 54)).flatMap
          (fun kv => kv.1 :: serializeOptVal kv.2)
        ++ (255 :: pad)))))) []
      = some ((f.options.filter
          (fun kv => kv.1 ≠ 53 ∧ kv.1 ≠ 54)).foldl
          (fun acc kv =>
            if kv.1 = 51 ∨ kv.1 = 54 then acc
            else mapInsert kv.1 kv.2 acc) (mapInsert 53 v53 [])) := by
    rw [parseOpts_serialized_option 53 v53 _ [] wf53,
      if_neg (by decide),
      parseOpts_serialized_option 54 v54 _ _ wf54,
      if_pos (by decide),
      parseOpts_flat _ (255 :: pad) _ hfwf,
      parseOpts_end]
  have hlt : f.chaddr * 2 ^ 16 < 2 ^ 64 := by
    have h1 : f.chaddr * 2 ^ 16 < 2 ^ 48 * 2 ^ 16 :=
      (Nat.mul_lt_mul_right (show 0 < 2 ^ 16 by norm_num)).mpr hch
    have h2 : (2 : Nat) ^ 48 * 2 ^ 16 = 2 ^ 64 := by norm_num
    rw [h2] at h1
    exact h1
  refine ⟨_,
    { operation := f.operation
      hardwareType := f.hardwareType
      hardwareAddressLength := f.hardwareAddressLength
      hops := f.hops
      transactionId := f.transactionId
      secondsElapsed := f.secondsElapsed
      flags := f.flags
      ciaddr := f.ciaddr
      yiaddr := f.yiaddr
      siaddr := f.siaddr
      giaddr := f.giaddr
      chaddr := f.chaddr
      magic := 0x63825363
      options := (f.options.filter
          (fun kv => kv.1 ≠ 53 ∧ kv.1 ≠ 54)).foldl
          (fun acc kv =>
            if kv.1 = 51 ∨ kv.1 = 54 then acc
            else mapInsert kv.1 kv.2 acc) (mapInsert 53 v53 []) },
    hser, ?_, ?_⟩
  · -- the decode of the serialized bytes
    unfold deserializeBootp
    rw [if_neg (by
      simp only [List.length_append, encodeHeader_length, List.length_cons]
      omega)]
    dsimp only
    rw [rmagic, hmagic]
    rw [if_neg (by decide)]
    rw [encodeHeader_drop, hparse]
    dsimp only
    rw [r0, Nat.mod_eq_of_lt hop, r1, Nat.mod_eq_of_lt hht,
      r2, Nat.mod_eq_of_lt hhl, r3, Nat.mod_eq_of_lt hhops,
      rxid, Nat.mod_eq_of_lt hxid, rsecs, Nat.mod_eq_of_lt hsecs,
      rflags, Nat.mod_eq_of_lt hflags, rci, Nat.mod_eq_of_lt hci,
      ryi, Nat.mod_eq_of_lt hyi, rsi, Nat.mod_eq_of_lt hsi,
      rgi, Nat.mod_eq_of_lt hgi, rch,
      Nat.mod_eq_of_lt hlt, Nat.mod_eq_of_lt hlt,
      Nat.mul_div_cancel _ (by norm_num : (0:Nat) < 2 ^ 16)]
    norm_num
  · refine ⟨rfl, rfl, rfl, rfl, rfl, rfl, rfl, rfl, rfl, rfl, rfl, rfl,
      hmagic.symm, ?_⟩
    intro k
    dsimp only
    have hfsub : ((f.options.filter
        (fun kv => kv.1 ≠ 53 ∧ kv.1 ≠ 54)).map Prod.fst).Nodup :=
      hnd.sublist (List.Sublist.map Prod.fst (List.filter_sublist f.options))
    rw [mapLookup_foldl_skip_insert
      (f.options.filter (fun kv => kv.1 ≠ 53 ∧ kv.1 ≠ 54))
      (mapInsert 53 v53 []) k hfsub]
    rw [mapLookup_filter_5354]
    have hacc : mapLookup k (mapInsert 53 v53 ([] : List (Nat × OptVal)))
        = if k = 53 then some v53 else none := by
      rw [mapLookup_insert]
      rfl
    rw [hacc]
    by_cases h51 : k = 51
    · subst h51
      norm_num
    by_cases h54 : k = 54
    · subst h54
      norm_num
    by_cases h53 : k = 53
    · subst h53
      norm_num [hv53]
    · rw [if_pos (⟨h53, h54⟩ : k ≠ 53 ∧ k ≠ 54)]
      rw [if_neg (by tauto : ¬ (k = 51 ∨ k = 54))]
      cases hlk : mapLookup k f.options with
      | none =>
          rw [if_neg (by simp [hlk])]
          rw [if_neg h53]
      | some v =>
          rw [if_pos ⟨h51, h54, rfl⟩]

/-- **C5 counterexample.** Decoding the encoding of a well-formed frame
containing option 54 (ServerIdentifier) — an option the encoder *requires*
— loses that option: the decoder's option loop deliberately skips keys 51
and 54 ("not applicable"), so `decode(encode(F))` does not hold the same
keys as `F`, contrary to the claim. -/
theorem C5_serverIdentifier_lost :
    ((serializeBootp rtFrame).bind deserializeBootp).map
        (fun g => mapLookup 54 g.options) = some none
    ∧ mapLookup 54 rtFrame.options = some (OptVal.u32 3232286721)
    ∧ ((serializeBootp rtFrame).bind deserializeBootp).map
        (fun g => mapLookup 50 g.options)
        = some (some (OptVal.ipList [3232286820])) := by decide

theorem C5_roundtrip_witness :
    WellFormedFrame rtFrame
    ∧ ∃ d g, serializeBootp rtFrame = some d ∧ deserializeBootp d = some g
      ∧ g.operation = rtFrame.operation
      ∧ g.hardwareType = rtFrame.hardwareType
      ∧ g.hardwareAddressLength = rtFrame.hardwareAddressLength
      ∧ g.hops = rtFrame.hops
      ∧ g.transactionId = rtFrame.transactionId
      ∧ g.secondsElapsed = rtFrame.secondsElapsed
      ∧ g.flags = rtFrame.flags ∧ g.ciaddr = rtFrame.ciaddr
      ∧ g.yiaddr = rtFrame.yiaddr ∧ g.siaddr = rtFrame.siaddr
      ∧ g.giaddr = rtFrame.giaddr ∧ g.chaddr = rtFrame.chaddr
      ∧ g.magic = rtFrame.magic
      ∧ ∀ k, mapLookup k g.options
          = if k = 51 ∨ k = 54 then none
            else mapLookup k rtFrame.options :=
  ⟨by decide, C5_roundtrip rtFrame (by decide)⟩
